import Mathlib

/-!
# pretty-claude-stream: a verification development of `main.go`

The program reads newline-delimited JSON events and renders them to a terminal.
This file embeds it in Lean:

* the JSON text accepted by `encoding/json` (`lex`, `parseTokens`, `parseJSON`), following the
  states of the library's scanner;
* `json.Unmarshal` into each of the program's wire structs (`decodeBase`, `decodeEvent`,
  `decodeStreamEvent`, `decodeAssistantEnvelope`, `decodeResultEvent`, `decodeParams`);
* the two package-level variables as a `State`, and the handlers as functions
  `State → input → State × Outputs`.

Conventions.

* Text is `String`; an input line is taken to be valid UTF-8.
* A Go map is iterated in an unspecified order, so a handler returns the list of every text it
  may write, one per iteration order (`Outputs`). A handler that writes nothing returns `[""]`.
* `json.Unmarshal` reports a syntax error before storing anything and otherwise reports the
  first type mismatch after decoding the rest; every caller in `main.go` only tests `err != nil`
  and leaves, so a decoder here returns `none` for both.
* Floating point belongs to the standard library and is not modelled: what `strconv` and
  `json.Marshal` do is taken as a parameter (`StdLib`).
-/

namespace PrettyClaudeStream

/-! ## JSON values -/

/-- A JSON document as written: object fields in source order, repeated names kept, numbers as
their literal text. -/
inductive JSON where
  | null
  | bool (b : Bool)
  | num (lit : String)
  | str (s : String)
  | arr (items : List JSON)
  | obj (fields : List (String × JSON))
  deriving Repr, Inhabited

/-! ## Scanner -/

/-- Lexical tokens of JSON text. -/
inductive Token where
  | lbrace
  | rbrace
  | lbrack
  | rbrack
  | colon
  | comma
  | str (s : String)
  | num (lit : String)
  | tru
  | fls
  | nul
  deriving Repr

/-- One unit of a string literal: a character written directly (or through a one-letter escape),
or the 16-bit value of a `\uXXXX` escape. -/
inductive StrUnit where
  | ch (c : Char)
  | u4 (n : Nat)
  deriving Repr

/-- States of the number scanner (`stateNeg`, `state0`, `state1`, `stateDot`, `stateDot0`,
`stateE`, `stateESign`, `stateE0` of `encoding/json`). -/
inductive NumState where
  | neg
  | zero
  | int
  | dot
  | dot0
  | e
  | eSign
  | e0
  deriving Repr, DecidableEq

/-- Next state of the number scanner on `c`, or `none` when `c` does not continue the number. -/
def NumState.step (s : NumState) (c : Char) : Option NumState :=
  match s with
  | .neg => if c = '0' then some .zero else if '1' ≤ c ∧ c ≤ '9' then some .int else none
  | .int =>
    if '0' ≤ c ∧ c ≤ '9' then some .int
    else if c = '.' then some .dot
    else if c = 'e' ∨ c = 'E' then some .e
    else none
  | .zero =>
    if c = '.' then some .dot
    else if c = 'e' ∨ c = 'E' then some .e
    else none
  | .dot => if '0' ≤ c ∧ c ≤ '9' then some .dot0 else none
  | .dot0 =>
    if '0' ≤ c ∧ c ≤ '9' then some .dot0
    else if c = 'e' ∨ c = 'E' then some .e
    else none
  | .e =>
    if c = '+' ∨ c = '-' then some .eSign
    else if '0' ≤ c ∧ c ≤ '9' then some .e0
    else none
  | .eSign => if '0' ≤ c ∧ c ≤ '9' then some .e0 else none
  | .e0 => if '0' ≤ c ∧ c ≤ '9' then some .e0 else none

/-- The states in which a number may end. -/
def NumState.accepting : NumState → Bool
  | .zero | .int | .dot0 | .e0 => true
  | _ => false

/-- Value of a hexadecimal digit (`getu4` accepts both cases). -/
def hexVal (c : Char) : Option Nat :=
  if '0' ≤ c ∧ c ≤ '9' then some (c.toNat - '0'.toNat)
  else if 'a' ≤ c ∧ c ≤ 'f' then some (c.toNat - 'a'.toNat + 10)
  else if 'A' ≤ c ∧ c ≤ 'F' then some (c.toNat - 'A'.toNat + 10)
  else none

/-- The character denoted by a one-letter escape. -/
def escapeChar (c : Char) : Option Char :=
  if c = '"' then some '"'
  else if c = '\\' then some '\\'
  else if c = '/' then some '/'
  else if c = 'b' then some (Char.ofNat 8)
  else if c = 'f' then some (Char.ofNat 12)
  else if c = 'n' then some '\n'
  else if c = 'r' then some '\r'
  else if c = 't' then some '\t'
  else none

/-- Whether a 16-bit value is a UTF-16 surrogate. -/
def isSurrogate (n : Nat) : Bool := 0xD800 ≤ n && n < 0xE000

/-- The character of a single `\uXXXX` escape: a surrogate standing alone becomes U+FFFD. -/
def loneRune (n : Nat) : Char := if isSurrogate n then Char.ofNat 0xFFFD else Char.ofNat n

/-- Whether a 16-bit value is a high (leading) surrogate. -/
def isHighSurrogate (n : Nat) : Bool := 0xD800 ≤ n && n < 0xDC00

/-- Whether a 16-bit value is a low (trailing) surrogate. -/
def isLowSurrogate (n : Nat) : Bool := 0xDC00 ≤ n && n < 0xE000

/-- The character of a surrogate pair (`utf16.DecodeRune`). -/
def pairRune (hi lo : Nat) : Char := Char.ofNat (0x10000 + (hi - 0xD800) * 0x400 + (lo - 0xDC00))

/-- The text denoted by the units of a string literal, `pend` being a high surrogate escape just
read and not yet written. -/
def unquoteAux : Option Nat → List StrUnit → List Char
  | none, [] => []
  | some _, [] => [Char.ofNat 0xFFFD]
  | none, .ch c :: rest => c :: unquoteAux none rest
  | some _, .ch c :: rest => Char.ofNat 0xFFFD :: c :: unquoteAux none rest
  | none, .u4 n :: rest =>
    if isHighSurrogate n then unquoteAux (some n) rest else loneRune n :: unquoteAux none rest
  | some hi, .u4 n :: rest =>
    if isLowSurrogate n then pairRune hi n :: unquoteAux none rest
    else if isHighSurrogate n then Char.ofNat 0xFFFD :: unquoteAux (some n) rest
    else Char.ofNat 0xFFFD :: loneRune n :: unquoteAux none rest

/-- The text denoted by the units of a string literal (`unquoteBytes`): a high surrogate escape
directly followed by a low surrogate escape is one character, any other surrogate is U+FFFD. -/
def unquote (us : List StrUnit) : List Char := unquoteAux none us

/-- What the scanner is in the middle of. -/
inductive LexMode where
  | idle
  | inStr (acc : List StrUnit)
  | esc (acc : List StrUnit)
  | hex (acc : List StrUnit) (digits : List Nat)
  | num (s : NumState) (acc : List Char)
  | lit (expect : List Char) (tok : Token)
  deriving Repr

/-- Scanner state: tokens produced so far (latest first) and the current mode. -/
structure LexState where
  toks : List Token
  mode : LexMode
  deriving Repr

/-- Whitespace between tokens. -/
def isSpace (c : Char) : Bool := c = ' ' || c = '\t' || c = '\r' || c = '\n'

/-- A character met between tokens. -/
def lexIdle (toks : List Token) (c : Char) : Option LexState :=
  if isSpace c then some ⟨toks, .idle⟩
  else if c = '{' then some ⟨.lbrace :: toks, .idle⟩
  else if c = '}' then some ⟨.rbrace :: toks, .idle⟩
  else if c = '[' then some ⟨.lbrack :: toks, .idle⟩
  else if c = ']' then some ⟨.rbrack :: toks, .idle⟩
  else if c = ':' then some ⟨.colon :: toks, .idle⟩
  else if c = ',' then some ⟨.comma :: toks, .idle⟩
  else if c = '"' then some ⟨toks, .inStr []⟩
  else if c = '-' then some ⟨toks, .num .neg [c]⟩
  else if c = '0' then some ⟨toks, .num .zero [c]⟩
  else if '1' ≤ c ∧ c ≤ '9' then some ⟨toks, .num .int [c]⟩
  else if c = 't' then some ⟨toks, .lit ['r', 'u', 'e'] .tru⟩
  else if c = 'f' then some ⟨toks, .lit ['a', 'l', 's', 'e'] .fls⟩
  else if c = 'n' then some ⟨toks, .lit ['u', 'l', 'l'] .nul⟩
  else none

/-- One character of input. -/
def lexStep (st : LexState) (c : Char) : Option LexState :=
  match st.mode with
  | .idle => lexIdle st.toks c
  | .inStr acc =>
    if c = '"' then some ⟨.str (String.mk (unquote acc.reverse)) :: st.toks, .idle⟩
    else if c = '\\' then some ⟨st.toks, .esc acc⟩
    else if c.toNat < 0x20 then none
    else some ⟨st.toks, .inStr (.ch c :: acc)⟩
  | .esc acc =>
    if c = 'u' then some ⟨st.toks, .hex acc []⟩
    else match escapeChar c with
      | some d => some ⟨st.toks, .inStr (.ch d :: acc)⟩
      | none => none
  | .hex acc ds =>
    match hexVal c with
    | none => none
    | some d =>
      match ds with
      | [d2, d1, d0] => some ⟨st.toks, .inStr (.u4 (d0 * 4096 + d1 * 256 + d2 * 16 + d) :: acc)⟩
      | _ => some ⟨st.toks, .hex acc (d :: ds)⟩
  | .num s acc =>
    match s.step c with
    | some s' => some ⟨st.toks, .num s' (c :: acc)⟩
    | none =>
      if s.accepting then lexIdle (.num (String.mk acc.reverse) :: st.toks) c else none
  | .lit expect tok =>
    match expect with
    | [] => none
    | [x] => if c = x then some ⟨tok :: st.toks, .idle⟩ else none
    | x :: rest => if c = x then some ⟨st.toks, .lit rest tok⟩ else none

/-- Runs the scanner over the characters. -/
def lexAll : LexState → List Char → Option LexState
  | st, [] => some st
  | st, c :: cs =>
    match lexStep st c with
    | none => none
    | some st' => lexAll st' cs

/-- The tokens of a text, or `none` when it is not a sequence of JSON tokens. -/
def lex (s : String) : Option (List Token) :=
  match lexAll ⟨[], .idle⟩ s.toList with
  | none => none
  | some st =>
    match st.mode with
    | .idle => some st.toks.reverse
    | .num s acc =>
      if s.accepting then some (Token.num (String.mk acc.reverse) :: st.toks).reverse else none
    | _ => none

/-! ## Parser -/

/-- The nesting limit of the library's scanner (`maxNestingDepth`). -/
def maxNestingDepth : Nat := 10000

/-- An open array or object: what it holds so far (latest first) and, for an object, the name
whose value is being read. -/
inductive Frame where
  | arr (acc : List JSON)
  | obj (acc : List (String × JSON)) (key : String)
  deriving Repr

/-- What the parser accepts next. -/
inductive Expect where
  | value
  | valueOrEnd
  | keyOrEnd
  | key
  | colon
  | afterValue
  | done (v : JSON)
  deriving Repr

/-- Parser state: the open containers, innermost first, and what is accepted next. -/
structure PState where
  stack : List Frame
  expect : Expect
  deriving Repr

/-- A value has been completed: it goes to the innermost open container, or is the document. -/
def endValue (stack : List Frame) (v : JSON) : PState :=
  match stack with
  | [] => ⟨[], .done v⟩
  | .arr acc :: rest => ⟨.arr (v :: acc) :: rest, .afterValue⟩
  | .obj acc k :: rest => ⟨.obj ((k, v) :: acc) "" :: rest, .afterValue⟩

/-- Opens a container, refusing to nest deeper than `maxNestingDepth`. -/
def pushFrame (stack : List Frame) (f : Frame) (e : Expect) : Option PState :=
  if stack.length + 1 ≤ maxNestingDepth then some ⟨f :: stack, e⟩ else none

/-- A token where a value starts. -/
def beginValue (stack : List Frame) : Token → Option PState
  | .str s => some (endValue stack (.str s))
  | .num l => some (endValue stack (.num l))
  | .tru => some (endValue stack (.bool true))
  | .fls => some (endValue stack (.bool false))
  | .nul => some (endValue stack .null)
  | .lbrack => pushFrame stack (.arr []) .valueOrEnd
  | .lbrace => pushFrame stack (.obj [] "") .keyOrEnd
  | _ => none

/-- A token where an object name is due. -/
def beginKey (stack : List Frame) : Token → Option PState
  | .str k =>
    match stack with
    | .obj acc _ :: rest => some ⟨.obj acc k :: rest, .colon⟩
    | _ => none
  | _ => none

/-- Closes the innermost array. -/
def closeArr : List Frame → Option PState
  | .arr acc :: rest => some (endValue rest (.arr acc.reverse))
  | _ => none

/-- Closes the innermost object. -/
def closeObj : List Frame → Option PState
  | .obj acc _ :: rest => some (endValue rest (.obj acc.reverse))
  | _ => none

/-- One token of input. -/
def parseStep (st : PState) (t : Token) : Option PState :=
  match st.expect with
  | .value => beginValue st.stack t
  | .valueOrEnd =>
    match t with
    | .rbrack => closeArr st.stack
    | _ => beginValue st.stack t
  | .keyOrEnd =>
    match t with
    | .rbrace => closeObj st.stack
    | _ => beginKey st.stack t
  | .key => beginKey st.stack t
  | .colon =>
    match t with
    | .colon => some ⟨st.stack, .value⟩
    | _ => none
  | .afterValue =>
    match t with
    | .comma =>
      match st.stack with
      | .arr _ :: _ => some ⟨st.stack, .value⟩
      | .obj _ _ :: _ => some ⟨st.stack, .key⟩
      | [] => none
    | .rbrack => closeArr st.stack
    | .rbrace => closeObj st.stack
    | _ => none
  | .done _ => none

/-- Runs the parser over the tokens. -/
def parseAll : PState → List Token → Option PState
  | st, [] => some st
  | st, t :: ts =>
    match parseStep st t with
    | none => none
    | some st' => parseAll st' ts

/-- The document made of the tokens: exactly one value. -/
def parseTokens (ts : List Token) : Option JSON :=
  match parseAll ⟨[], .value⟩ ts with
  | some ⟨_, .done v⟩ => some v
  | _ => none

/-- The document a text denotes, or `none` when the text is not well-formed JSON: the syntax
check `json.Unmarshal` performs before it stores anything. -/
def parseJSON (s : String) : Option JSON :=
  match lex s with
  | none => none
  | some ts => parseTokens ts

/-! ## Standard library -/

/-- What the program uses of the standard library's floating point and of `json.Marshal`, taken
as a parameter. `parseFloatOk lit` says whether `strconv.ParseFloat(lit, 64)` succeeds (it fails
when the literal is out of the range of a `float64`); `formatFloat lit` is the text `%v` gives
the `float64` read from `lit`; `marshal v` is the text `json.Marshal` gives the decoded value
`v`. -/
structure StdLib where
  parseFloatOk : String → Bool
  formatFloat : String → String
  marshal : JSON → String

/-! ## Decoding into `any` -/

/-- Stores a value under a name in a Go map: an existing entry is overwritten. -/
def mapSet (m : List (String × JSON)) (k : String) (v : JSON) : List (String × JSON) :=
  match m with
  | [] => [(k, v)]
  | (k', v') :: rest => if k' = k then (k, v) :: rest else (k', v') :: mapSet rest k v

/-- The map holding the given entries, stored in order: a repeated name keeps its last value. -/
def mapOfEntries (kvs : List (String × JSON)) : List (String × JSON) :=
  kvs.foldl (fun m kv => mapSet m kv.1 kv.2) []

mutual

/-- The Go value `json.Unmarshal` stores in an `any` for a document: objects become maps (a
repeated name keeps its last value), numbers become `float64`, and a number `strconv` refuses
is an error. A map is written as the list of its entries, names distinct. -/
def toAny (lib : StdLib) : JSON → Option JSON
  | .null => some .null
  | .bool b => some (.bool b)
  | .num lit => if lib.parseFloatOk lit then some (.num lit) else none
  | .str s => some (.str s)
  | .arr items =>
    match toAnyList lib items with
    | some vs => some (.arr vs)
    | none => none
  | .obj fields =>
    match toAnyFields lib fields with
    | some kvs => some (.obj (mapOfEntries kvs))
    | none => none

/-- Decodes the items of an array, in the manner of `toAny`. -/
def toAnyList (lib : StdLib) : List JSON → Option (List JSON)
  | [] => some []
  | j :: js =>
    match toAny lib j, toAnyList lib js with
    | some v, some vs => some (v :: vs)
    | _, _ => none

/-- Decodes the value of every field of an object, in the manner of `toAny`. -/
def toAnyFields (lib : StdLib) : List (String × JSON) → Option (List (String × JSON))
  | [] => some []
  | (k, j) :: rest =>
    match toAny lib j, toAnyFields lib rest with
    | some v, some vs => some ((k, v) :: vs)
    | _, _ => none

end

/-! ## Decoding into the wire structs -/

/-- The letter a character of an object name is compared as: ASCII letters without regard to
case, and the two non-ASCII characters whose case folding is an ASCII letter (U+017F with `s`,
U+212A with `k`). -/
def foldChar (c : Char) : Char :=
  if 'a' ≤ c ∧ c ≤ 'z' then Char.ofNat (c.toNat - 32)
  else if c = Char.ofNat 0x17F then 'S'
  else if c = Char.ofNat 0x212A then 'K'
  else c

/-- Whether an object name selects the struct field tagged `name`: `encoding/json` takes an
exact match and otherwise a case-insensitive one. -/
def fieldMatches (name key : String) : Bool :=
  key = name || key.toList.map foldChar = name.toList.map foldChar

/-- Value of a run of decimal digits, `none` if another character occurs. -/
def digitsVal (acc : Nat) : List Char → Option Nat
  | [] => some acc
  | c :: cs => if '0' ≤ c ∧ c ≤ '9' then digitsVal (acc * 10 + (c.toNat - '0'.toNat)) cs else none

/-- The Go `int` a number literal decodes to (`strconv.ParseInt(lit, 10, 64)`): the literal has
no fraction and no exponent and its value fits 64 bits. -/
def parseInt64 (lit : String) : Option Int :=
  match lit.toList with
  | [] => none
  | '-' :: ds =>
    match ds, digitsVal 0 ds with
    | _ :: _, some n => if n ≤ 2 ^ 63 then some (-(n : Int)) else none
    | _, _ => none
  | ds =>
    match digitsVal 0 ds with
    | some n => if n < 2 ^ 63 then some (n : Int) else none
    | none => none

/-- Stores a document into a `string` field: `null` leaves it as it is, anything but a string
is a type error. -/
def setString (cur : String) : JSON → Option String
  | .str s => some s
  | .null => some cur
  | _ => none

/-- Stores a document into a `bool` field. -/
def setBool (cur : Bool) : JSON → Option Bool
  | .bool b => some b
  | .null => some cur
  | _ => none

/-- Stores a document into an `int` field. -/
def setInt (cur : Int) : JSON → Option Int
  | .num lit => parseInt64 lit
  | .null => some cur
  | _ => none

/-- Stores the fields of an object into a struct, in source order. -/
def decodeFields {α : Type} (setField : α → String → JSON → Option α) :
    α → List (String × JSON) → Option α
  | a, [] => some a
  | a, (k, v) :: rest =>
    match setField a k v with
    | some a' => decodeFields setField a' rest
    | none => none

/-- Stores a document into a struct: an object fills the fields it names, `null` changes
nothing, anything else is a type error. -/
def setStruct {α : Type} (setField : α → String → JSON → Option α) (cur : α) : JSON → Option α
  | .obj fields => decodeFields setField cur fields
  | .null => some cur
  | _ => none

/-- Stores a document into a pointer-to-struct field: `null` makes it nil, an object fills the
struct pointed to, allocating a zero one if the pointer is nil. -/
def setPtr {α : Type} (setField : α → String → JSON → Option α) (zero : α) (cur : Option α) :
    JSON → Option (Option α)
  | .obj fields =>
    match decodeFields setField (cur.getD zero) fields with
    | some a => some (some a)
    | none => none
  | .null => some none
  | _ => none

/-- The anonymous struct of `main`: the outer discriminator. -/
structure Base where
  Type_ : String := ""
  deriving Repr, DecidableEq

/-- Go `Event`. `Event_` is the raw nested document, `none` while the slice is nil. -/
structure Event where
  Type_ : String := ""
  Event_ : Option JSON := none

/-- Go `Delta`. -/
structure Delta where
  Type_ : String := ""
  Text : String := ""
  PartialJSON : String := ""
  deriving Repr, DecidableEq

/-- Go `ContentBlock`. -/
structure ContentBlock where
  Type_ : String := ""
  ID : String := ""
  Name : String := ""
  Text : String := ""
  Input : JSON := .null

/-- Go `StreamEvent`. -/
structure StreamEvent where
  Type_ : String := ""
  Index : Int := 0
  Delta : Option Delta := none
  ContentBlock : Option ContentBlock := none

/-- Go `AssistantContent`. -/
structure AssistantContent where
  Type_ : String := ""
  Text : String := ""
  deriving Repr, DecidableEq

/-- Go `AssistantMessage`. `Content` is the slice; `ContentSpare` is what its backing array
holds beyond its length, which only a later array stored under the same name reads. -/
structure AssistantMessage where
  ID : String := ""
  Role : String := ""
  Content : List AssistantContent := []
  ContentSpare : List AssistantContent := []
  deriving Repr, DecidableEq

/-- Go `AssistantEnvelope`. -/
structure AssistantEnvelope where
  Type_ : String := ""
  Message : Option AssistantMessage := none
  Error : String := ""
  deriving Repr, DecidableEq

/-- Go `ResultEvent`. -/
structure ResultEvent where
  Type_ : String := ""
  Subtype : String := ""
  IsError : Bool := false
  Result : String := ""
  Error : String := ""
  deriving Repr, DecidableEq

/-- One field of the outer discriminator struct. -/
def Base.setField (b : Base) (k : String) (v : JSON) : Option Base :=
  if fieldMatches "type" k then (setString b.Type_ v).map fun s => { b with Type_ := s }
  else some b

/-- One field of `Event`; `json.RawMessage` keeps whatever document is given, `null` included. -/
def Event.setField (e : Event) (k : String) (v : JSON) : Option Event :=
  if fieldMatches "type" k then (setString e.Type_ v).map fun s => { e with Type_ := s }
  else if fieldMatches "event" k then some { e with Event_ := some v }
  else some e

/-- One field of `Delta`. -/
def Delta.setField (d : Delta) (k : String) (v : JSON) : Option Delta :=
  if fieldMatches "type" k then (setString d.Type_ v).map fun s => { d with Type_ := s }
  else if fieldMatches "text" k then (setString d.Text v).map fun s => { d with Text := s }
  else if fieldMatches "partial_json" k then
    (setString d.PartialJSON v).map fun s => { d with PartialJSON := s }
  else some d

/-- One field of `ContentBlock`. -/
def ContentBlock.setField (lib : StdLib) (c : ContentBlock) (k : String) (v : JSON) :
    Option ContentBlock :=
  if fieldMatches "type" k then (setString c.Type_ v).map fun s => { c with Type_ := s }
  else if fieldMatches "id" k then (setString c.ID v).map fun s => { c with ID := s }
  else if fieldMatches "name" k then (setString c.Name v).map fun s => { c with Name := s }
  else if fieldMatches "text" k then (setString c.Text v).map fun s => { c with Text := s }
  else if fieldMatches "input" k then (toAny lib v).map fun a => { c with Input := a }
  else some c

/-- One field of `StreamEvent`. -/
def StreamEvent.setField (lib : StdLib) (se : StreamEvent) (k : String) (v : JSON) :
    Option StreamEvent :=
  if fieldMatches "type" k then (setString se.Type_ v).map fun s => { se with Type_ := s }
  else if fieldMatches "index" k then (setInt se.Index v).map fun i => { se with Index := i }
  else if fieldMatches "delta" k then
    (setPtr Delta.setField {} se.Delta v).map fun d => { se with Delta := d }
  else if fieldMatches "content_block" k then
    (setPtr (ContentBlock.setField lib) {} se.ContentBlock v).map fun c =>
      { se with ContentBlock := c }
  else some se

/-- One field of `AssistantContent`. -/
def AssistantContent.setField (c : AssistantContent) (k : String) (v : JSON) :
    Option AssistantContent :=
  if fieldMatches "type" k then (setString c.Type_ v).map fun s => { c with Type_ := s }
  else if fieldMatches "text" k then (setString c.Text v).map fun s => { c with Text := s }
  else some c

/-- Decodes the items of an array into slice elements: item `i` is stored into what the backing
array holds at `i`, a zero element where it holds nothing. -/
def decodeElems : List AssistantContent → List JSON → Option (List AssistantContent)
  | _, [] => some []
  | backing, j :: js =>
    match setStruct AssistantContent.setField (backing.headD {}) j,
      decodeElems backing.tail js with
    | some a, some rest => some (a :: rest)
    | _, _ => none

/-- One field of `AssistantMessage`. For `content`, `null` makes the slice nil, an empty array
makes it a fresh empty slice, and any other array is decoded over the backing array, the slice
being cut to the number of items. -/
def AssistantMessage.setField (m : AssistantMessage) (k : String) (v : JSON) :
    Option AssistantMessage :=
  if fieldMatches "id" k then (setString m.ID v).map fun s => { m with ID := s }
  else if fieldMatches "role" k then (setString m.Role v).map fun s => { m with Role := s }
  else if fieldMatches "content" k then
    match v with
    | .null => some { m with Content := [], ContentSpare := [] }
    | .arr [] => some { m with Content := [], ContentSpare := [] }
    | .arr items =>
      match decodeElems (m.Content ++ m.ContentSpare) items with
      | some elems =>
        some { m with
          Content := elems
          ContentSpare := (m.Content ++ m.ContentSpare).drop items.length }
      | none => none
    | _ => none
  else some m

/-- One field of `AssistantEnvelope`. -/
def AssistantEnvelope.setField (e : AssistantEnvelope) (k : String) (v : JSON) :
    Option AssistantEnvelope :=
  if fieldMatches "type" k then (setString e.Type_ v).map fun s => { e with Type_ := s }
  else if fieldMatches "message" k then
    (setPtr AssistantMessage.setField {} e.Message v).map fun m => { e with Message := m }
  else if fieldMatches "error" k then (setString e.Error v).map fun s => { e with Error := s }
  else some e

/-- One field of `ResultEvent`. -/
def ResultEvent.setField (r : ResultEvent) (k : String) (v : JSON) : Option ResultEvent :=
  if fieldMatches "type" k then (setString r.Type_ v).map fun s => { r with Type_ := s }
  else if fieldMatches "subtype" k then
    (setString r.Subtype v).map fun s => { r with Subtype := s }
  else if fieldMatches "is_error" k then
    (setBool r.IsError v).map fun b => { r with IsError := b }
  else if fieldMatches "result" k then (setString r.Result v).map fun s => { r with Result := s }
  else if fieldMatches "error" k then (setString r.Error v).map fun s => { r with Error := s }
  else some r

/-- The call `json.Unmarshal(line, &base)`. -/
def decodeBase (line : String) : Option Base :=
  match parseJSON line with
  | some j => setStruct Base.setField {} j
  | none => none

/-- The call `json.Unmarshal(line, &event)`. -/
def decodeEvent (line : String) : Option Event :=
  match parseJSON line with
  | some j => setStruct Event.setField {} j
  | none => none

/-- The call `json.Unmarshal(raw, &se)`. A nil `raw` is not a document. The raw message holds
the text of a value of a line already checked, which reads back as that value, so it is given
here as the document itself. -/
def decodeStreamEvent (lib : StdLib) (raw : Option JSON) : Option StreamEvent :=
  match raw with
  | some j => setStruct (StreamEvent.setField lib) {} j
  | none => none

/-- The call `json.Unmarshal(line, &env)`. -/
def decodeAssistantEnvelope (line : String) : Option AssistantEnvelope :=
  match parseJSON line with
  | some j => setStruct AssistantEnvelope.setField {} j
  | none => none

/-- The call `json.Unmarshal(line, &res)`. -/
def decodeResultEvent (line : String) : Option ResultEvent :=
  match parseJSON line with
  | some j => setStruct ResultEvent.setField {} j
  | none => none

/-- The call `json.Unmarshal([]byte(jsonStr), &params)` with `params` a nil `map[string]any`:
an object gives the map of its fields, `null` leaves the map nil, anything else is an error. -/
def decodeParams (lib : StdLib) (jsonStr : String) : Option (List (String × JSON)) :=
  match parseJSON jsonStr with
  | some (.obj fields) =>
    match toAnyFields lib fields with
    | some kvs => some (mapOfEntries kvs)
    | none => none
  | some .null => some []
  | _ => none

/-! ## State and output -/

/-- The package-level variables: `toolInputs` maps a content-block index to the text its
builder holds, `lastAssistantText` is the last assistant text seen. -/
structure State where
  toolInputs : Int → Option String
  lastAssistantText : String

/-- The state at program start: an empty map and the empty string. -/
def State.init : State := ⟨fun _ => none, ""⟩

/-- The map with the entry of `i` set to `v` (`none` deletes it). -/
def setInput (m : Int → Option String) (i : Int) (v : Option String) : Int → Option String :=
  fun j => if j = i then v else m j

/-- Every text a piece of code may write to standard output, one for each order in which the
maps it ranges over may be iterated. -/
abbrev Outputs := List String

/-- Nothing is written. -/
def silent : Outputs := [""]

/-- What is written by one piece of code followed by another. -/
def Outputs.seq (a b : Outputs) : Outputs :=
  a.flatMap fun x => b.map fun y => x ++ y

/-- What is written by pieces of code run one after the other. -/
def Outputs.seqAll : List Outputs → Outputs
  | [] => silent
  | o :: os => Outputs.seq o (Outputs.seqAll os)

/-! ANSI color codes. -/

def Reset : String := "\x1b[0m"
def Bold : String := "\x1b[1m"
def Dim : String := "\x1b[2m"
def Cyan : String := "\x1b[36m"
def Yellow : String := "\x1b[33m"
def Green : String := "\x1b[32m"
def Blue : String := "\x1b[34m"
def Magenta : String := "\x1b[35m"
def Red : String := "\x1b[31m"
def BoldCyan : String := "\x1b[1;36m"
def BoldGreen : String := "\x1b[1;32m"

/-! ## Rendering -/

/-- Inserts an entry into a list of entries sorted by name. -/
def insertByKey (kv : String × String) : List (String × String) → List (String × String)
  | [] => [kv]
  | x :: xs => if kv.1 ≤ x.1 then kv :: x :: xs else x :: insertByKey kv xs

/-- Sorts entries by name, as `fmt` does before it prints a map. -/
def sortByKey : List (String × String) → List (String × String)
  | [] => []
  | x :: xs => insertByKey x (sortByKey xs)

mutual

/-- The text `fmt` prints for a decoded value under the verb `%v`. -/
def fmtV (lib : StdLib) : JSON → String
  | .null => "<nil>"
  | .bool b => if b then "true" else "false"
  | .num lit => lib.formatFloat lit
  | .str s => s
  | .arr items => "[" ++ " ".intercalate (fmtVList lib items) ++ "]"
  | .obj m =>
    "map[" ++ " ".intercalate ((sortByKey (fmtVFields lib m)).map fun kv => kv.1 ++ ":" ++ kv.2)
      ++ "]"

/-- The `%v` text of each item of a slice. -/
def fmtVList (lib : StdLib) : List JSON → List String
  | [] => []
  | j :: js => fmtV lib j :: fmtVList lib js

/-- The `%v` text of each value of a map, with its name. -/
def fmtVFields (lib : StdLib) : List (String × JSON) → List (String × String)
  | [] => []
  | (k, j) :: rest => (k, fmtV lib j) :: fmtVFields lib rest

end

/-- The type assertion `v, _ := x.(string)` on the result of a map lookup. -/
def asString : Option JSON → String
  | some (.str s) => s
  | _ => ""

/-- One `key=value` pair of the generic map line. -/
def printPair (lib : StdLib) (kv : String × JSON) : String :=
  match kv.2 with
  | .str val => Yellow ++ kv.1 ++ Reset ++ "=" ++ Green ++ val ++ Reset
  | val => Yellow ++ kv.1 ++ Reset ++ "=" ++ Magenta ++ fmtV lib val ++ Reset

/-- The pairs of the generic map line in the given iteration order, a separator before each
pair but the first. -/
def printPairs (lib : StdLib) (first : Bool) : List (String × JSON) → String
  | [] => ""
  | kv :: rest =>
    (if first then "" else Dim ++ ", " ++ Reset) ++ printPair lib kv ++ printPairs lib false rest

/-- Go `printMapItem`. -/
def printMapItem (lib : StdLib) (m : List (String × JSON)) : Outputs :=
  match List.lookup "content" m with
  | some content =>
    let status := asString (List.lookup "status" m)
    let contentStr := asString (some content)
    let statusIcon :=
      if status = "completed" then "✓" else if status = "in_progress" then "→" else "○"
    let statusColor :=
      if status = "completed" then Green else if status = "in_progress" then Cyan else Dim
    ["    " ++ statusColor ++ statusIcon ++ Reset ++ " " ++ statusColor ++ contentStr ++ Reset
      ++ "\n"]
  | none =>
    m.permutations'.map fun order =>
      "    " ++ Dim ++ "-" ++ Reset ++ " " ++ printPairs lib true order ++ "\n"

/-- One entry of a list value of `printPrettyParams`. -/
def printItem (lib : StdLib) : JSON → Outputs
  | .obj m => printMapItem lib m
  | item => ["    " ++ Dim ++ "-" ++ Reset ++ " " ++ Dim ++ fmtV lib item ++ Reset ++ "\n"]

/-- What `printPrettyParams` writes for a value, after the key label. -/
def printValue (lib : StdLib) : JSON → Outputs
  | .str v => [Green ++ v ++ Reset ++ "\n"]
  | .arr items => Outputs.seq ["\n"] (Outputs.seqAll (items.map (printItem lib)))
  | v => [Magenta ++ lib.marshal v ++ Reset ++ "\n"]

/-- What `printPrettyParams` writes for one key. -/
def printParam (lib : StdLib) (kv : String × JSON) : Outputs :=
  Outputs.seq ["  " ++ Yellow ++ kv.1 ++ Reset ++ ": "] (printValue lib kv.2)

/-- Go `printPrettyParams`. -/
def printPrettyParams (lib : StdLib) (jsonStr : String) : Outputs :=
  match decodeParams lib jsonStr with
  | none => silent
  | some params =>
    params.permutations'.flatMap fun order => Outputs.seqAll (order.map (printParam lib))

/-! ## Handlers -/

/-- The `switch se.Type` of `handleStreamEvent`, on a decoded event. -/
def streamEventSwitch (lib : StdLib) (st : State) (se : StreamEvent) : State × Outputs :=
  if se.Type_ = "content_block_start" then
    match se.ContentBlock with
    | some cb =>
      if cb.Type_ = "tool_use" then
        ({ st with toolInputs := setInput st.toolInputs se.Index (some "") },
          ["\n" ++ Dim ++ "[Tool: " ++ BoldCyan ++ cb.Name ++ Dim ++ "]" ++ Reset ++ "\n"])
      else (st, silent)
    | none => (st, silent)
  else if se.Type_ = "content_block_delta" then
    match se.Delta with
    | some d =>
      if d.Type_ = "text_delta" then (st, [d.Text])
      else if d.Type_ = "input_json_delta" then
        match st.toolInputs se.Index with
        | some sb =>
          ({ st with toolInputs := setInput st.toolInputs se.Index (some (sb ++ d.PartialJSON)) },
            silent)
        | none => (st, silent)
      else (st, silent)
    | none => (st, silent)
  else if se.Type_ = "content_block_stop" then
    match st.toolInputs se.Index with
    | some sb =>
      ({ st with toolInputs := setInput st.toolInputs se.Index none }, printPrettyParams lib sb)
    | none => (st, silent)
  else (st, silent)

/-- Go `handleStreamEvent`. -/
def handleStreamEvent (lib : StdLib) (st : State) (raw : Option JSON) : State × Outputs :=
  match decodeStreamEvent lib raw with
  | none => (st, silent)
  | some se => streamEventSwitch lib st se

/-- The text `handleAssistant` gathers from the content items of a message. -/
def assistantText (content : List AssistantContent) : String :=
  content.foldl (fun sb item => if item.Type_ = "text" then sb ++ item.Text else sb) ""

/-- The body of `handleAssistant`, on a decoded envelope. -/
def assistantBody (st : State) (env : AssistantEnvelope) : State × Outputs :=
  match env.Message with
  | none =>
    if env.Error ≠ "" then
      ({ st with lastAssistantText := env.Error }, [Red ++ env.Error ++ Reset ++ "\n"])
    else (st, silent)
  | some msg =>
    if assistantText msg.Content ≠ "" then
      ({ st with lastAssistantText := assistantText msg.Content }, silent)
    else (st, silent)

/-- Go `handleAssistant`. -/
def handleAssistant (st : State) (line : String) : State × Outputs :=
  match decodeAssistantEnvelope line with
  | none => (st, silent)
  | some env => assistantBody st env

/-- The body of `handleResult`, on a decoded event. -/
def resultBody (st : State) (res : ResultEvent) : State × Outputs :=
  if res.IsError then
    let msg := if res.Result = "" then res.Error else res.Result
    if msg ≠ "" ∧ msg ≠ st.lastAssistantText then (st, [Red ++ msg ++ Reset ++ "\n"])
    else (st, silent)
  else (st, silent)

/-- Go `handleResult`. -/
def handleResult (st : State) (line : String) : State × Outputs :=
  match decodeResultEvent line with
  | none => (st, silent)
  | some res => resultBody st res

/-- The body of the read loop of `main` for one line. -/
def processLine (lib : StdLib) (st : State) (line : String) : State × Outputs :=
  if line = "" then (st, silent)
  else
    match decodeBase line with
    | none => (st, silent)
    | some base =>
      if base.Type_ = "stream_event" then
        match decodeEvent line with
        | none => (st, silent)
        | some event => handleStreamEvent lib st event.Event_
      else if base.Type_ = "assistant" then handleAssistant st line
      else if base.Type_ = "result" then handleResult st line
      else (st, silent)

/-- The read loop of `main` over the lines of the input. -/
def processLines (lib : StdLib) : State → List String → State × Outputs
  | st, [] => (st, silent)
  | st, line :: rest =>
    let r := processLine lib st line
    let r' := processLines lib r.1 rest
    (r'.1, Outputs.seq r.2 r'.2)

/-- Go `main`: everything the program may write for the given input lines. -/
def main (lib : StdLib) (lines : List String) : Outputs :=
  Outputs.seq (processLines lib State.init lines).2 ["\n"]

/-- A run of decoded stream events through the switch of `handleStreamEvent`. -/
def runStreamEvents (lib : StdLib) : State → List StreamEvent → State × Outputs
  | st, [] => (st, silent)
  | st, se :: rest =>
    let r := streamEventSwitch lib st se
    let r' := runStreamEvents lib r.1 rest
    (r'.1, Outputs.seq r.2 r'.2)

/-! ## Kinds of stream event -/

/-- A `content_block_start` for index `i` announcing a block of kind `tool_use` named `name`. -/
def IsToolUseStart (i : Int) (name : String) (se : StreamEvent) : Prop :=
  se.Type_ = "content_block_start" ∧ se.Index = i ∧
    ∃ cb, se.ContentBlock = some cb ∧ cb.Type_ = "tool_use" ∧ cb.Name = name

/-- A `content_block_delta` of kind `text_delta` carrying the text `t`. -/
def IsTextDelta (t : String) (se : StreamEvent) : Prop :=
  se.Type_ = "content_block_delta" ∧ ∃ d, se.Delta = some d ∧ d.Type_ = "text_delta" ∧ d.Text = t

/-- A `content_block_delta` for index `i` of kind `input_json_delta` carrying the fragment `f`. -/
def IsInputJSONDelta (i : Int) (f : String) (se : StreamEvent) : Prop :=
  se.Type_ = "content_block_delta" ∧ se.Index = i ∧
    ∃ d, se.Delta = some d ∧ d.Type_ = "input_json_delta" ∧ d.PartialJSON = f

/-- A `content_block_stop` for index `i`. -/
def IsStop (i : Int) (se : StreamEvent) : Prop :=
  se.Type_ = "content_block_stop" ∧ se.Index = i

/-- The events `evs` carry the fragments `fs` to index `i`, in order, among text deltas and
events addressed to other indices. -/
inductive Interleaves (i : Int) : List String → List StreamEvent → Prop where
  | done : Interleaves i [] []
  | fragment {f : String} {fs : List String} {se : StreamEvent} {evs : List StreamEvent} :
      IsInputJSONDelta i f se → Interleaves i fs evs → Interleaves i (f :: fs) (se :: evs)
  | text {t : String} {fs : List String} {se : StreamEvent} {evs : List StreamEvent} :
      IsTextDelta t se → Interleaves i fs evs → Interleaves i fs (se :: evs)
  | other {fs : List String} {se : StreamEvent} {evs : List StreamEvent} :
      se.Index ≠ i → Interleaves i fs evs → Interleaves i fs (se :: evs)

/-! ## Kinds of line -/

/-- The line is a `stream_event` envelope whose nested event decodes to `se`: the path of `main`
that ends in the switch of `handleStreamEvent`. -/
def LineCarries (lib : StdLib) (line : String) (se : StreamEvent) : Prop :=
  ∃ base event, decodeBase line = some base ∧ base.Type_ = "stream_event" ∧
    decodeEvent line = some event ∧ decodeStreamEvent lib event.Event_ = some se

/-- The document is an object in which no name selects the field `type`: the discriminator is
absent. -/
def NoTypeField (j : JSON) : Prop :=
  ∃ fields, j = JSON.obj fields ∧ ∀ kv ∈ fields, fieldMatches "type" kv.1 = false

/-- The outer discriminator read by `main` is none of the three it dispatches on; a
discriminator that is not a string makes the decoding fail, so nothing is read. -/
def OuterUnrecognised (line : String) : Prop :=
  ∀ base, decodeBase line = some base →
    base.Type_ ≠ "stream_event" ∧ base.Type_ ≠ "assistant" ∧ base.Type_ ≠ "result"

/-- The line is a `stream_event` envelope and the discriminator read from its nested event is
none of the three `handleStreamEvent` dispatches on. -/
def NestedUnrecognised (lib : StdLib) (line : String) : Prop :=
  ∃ base event, decodeBase line = some base ∧ base.Type_ = "stream_event" ∧
    decodeEvent line = some event ∧
    ∀ se, decodeStreamEvent lib event.Event_ = some se →
      se.Type_ ≠ "content_block_start" ∧ se.Type_ ≠ "content_block_delta" ∧
        se.Type_ ≠ "content_block_stop"

/-- The line is an `assistant` envelope decoding to `env`: the path of `main` that ends in the
body of `handleAssistant`. -/
def LineIsAssistant (line : String) (env : AssistantEnvelope) : Prop :=
  ∃ base, decodeBase line = some base ∧ base.Type_ = "assistant" ∧
    decodeAssistantEnvelope line = some env

/-- The line is a `result` envelope decoding to `res`: the path of `main` that ends in the body
of `handleResult`. -/
def LineIsResult (line : String) (res : ResultEvent) : Prop :=
  ∃ base, decodeBase line = some base ∧ base.Type_ = "result" ∧
    decodeResultEvent line = some res

/-- The message of a result event as the specification words it: the result text if it is not
empty, the error text otherwise. -/
def chosenMessage (res : ResultEvent) : String :=
  if res.Result = "" then res.Error else res.Result

/-- The text of a message as the specification words it: the texts of exactly the content items
of kind `text`, in order, joined without separator. -/
def textOfKind (content : List AssistantContent) : String :=
  String.join ((content.filter fun item => item.Type_ = "text").map fun item => item.Text)

/-- The glyph of a checklist item with the given status text. -/
def glyphOf (status : String) : String :=
  if status = "completed" then "✓" else if status = "in_progress" then "→" else "○"

/-- The color code of a checklist item with the given status text. -/
def colorOf (status : String) : String :=
  if status = "completed" then Green else if status = "in_progress" then Cyan else Dim

/-- The line of a checklist item: indentation, the glyph in the status color, a blank, the
content text in the status color, a line break. -/
def checklistLine (status content : String) : String :=
  "    " ++ colorOf status ++ glyphOf status ++ Reset ++ " " ++ colorOf status ++ content
    ++ Reset ++ "\n"

/-- The events hold a tool-use start for `i` that no stop for `i` follows later. -/
def HasUnclosedStart (i : Int) (evs : List StreamEvent) : Prop :=
  ∃ pre s post name, evs = pre ++ s :: post ∧ IsToolUseStart i name s ∧ ∀ e ∈ post, ¬IsStop i e

/-- The number of line breaks in a text. -/
def lineBreaks (s : String) : Nat := s.toList.count '\n'

/-! ## Sample inputs -/

/-- A stand-in for the library parameter: every number literal is accepted and printed as it
was written, and `json.Marshal` is not consulted. -/
def sampleLib : StdLib := ⟨fun _ => true, fun lit => lit, fun _ => ""⟩

/-- A tool-use start for index 0 naming the tool `T`. -/
def sampleStart : StreamEvent :=
  { Type_ := "content_block_start", Index := 0,
    ContentBlock := some { Type_ := "tool_use", ID := "tu_1", Name := "T", Input := JSON.obj [] } }

/-- A partial-JSON delta carrying `f` to index `i`. -/
def sampleFragment (i : Int) (f : String) : StreamEvent :=
  { Type_ := "content_block_delta", Index := i,
    Delta := some { Type_ := "input_json_delta", PartialJSON := f } }

/-- A text delta carrying `t`, addressed to index `i`. -/
def sampleText (i : Int) (t : String) : StreamEvent :=
  { Type_ := "content_block_delta", Index := i, Delta := some { Type_ := "text_delta", Text := t } }

/-- A stop for index `i`. -/
def sampleStop (i : Int) : StreamEvent :=
  { Type_ := "content_block_stop", Index := i }

/-- The two fragments of the object with the single key `a` and value `b`, carried to index 0
among a text delta for index 0 and a fragment for index 1. -/
def sampleEvents : List StreamEvent :=
  [sampleFragment 0 "\x7b\"a\":", sampleText 0 "Hello", sampleFragment 1 "[1,",
    sampleFragment 0 "\"b\"\x7d"]

/-- The line of a tool-use start for index 0 naming the tool `T`. -/
def lineStart : String :=
  "\x7b\"type\":\"stream_event\",\"event\":\x7b\"type\":\"content_block_start\",\"index\":0," ++
  "\"content_block\":\x7b\"type\":\"tool_use\",\"id\":\"tu_1\",\"name\":\"T\",\"input\":\x7b\x7d\x7d\x7d\x7d"

/-- The line of a text block start for index 0. -/
def lineTextStart : String :=
  "\x7b\"type\":\"stream_event\",\"event\":\x7b\"type\":\"content_block_start\",\"index\":0," ++
  "\"content_block\":\x7b\"type\":\"text\",\"text\":\"\"\x7d\x7d\x7d"

/-- The line of a partial-JSON delta carrying the first fragment to index 0. -/
def lineFragmentA : String :=
  "\x7b\"type\":\"stream_event\",\"event\":\x7b\"type\":\"content_block_delta\",\"index\":0," ++
  "\"delta\":\x7b\"type\":\"input_json_delta\",\"partial_json\":\"\x7b\\\"a\\\":\"\x7d\x7d\x7d"

/-- The line of a partial-JSON delta carrying the second fragment to index 0. -/
def lineFragmentB : String :=
  "\x7b\"type\":\"stream_event\",\"event\":\x7b\"type\":\"content_block_delta\",\"index\":0," ++
  "\"delta\":\x7b\"type\":\"input_json_delta\",\"partial_json\":\"\\\"b\\\"\x7d\"\x7d\x7d\x7d"

/-- The line of a text delta carrying `Hello` to index 0. -/
def lineHello : String :=
  "\x7b\"type\":\"stream_event\",\"event\":\x7b\"type\":\"content_block_delta\",\"index\":0," ++
  "\"delta\":\x7b\"type\":\"text_delta\",\"text\":\"Hello\"\x7d\x7d\x7d"

/-- The line of a stop for index 0. -/
def lineStop : String :=
  "\x7b\"type\":\"stream_event\",\"event\":\x7b\"type\":\"content_block_stop\",\"index\":0\x7d\x7d"

/-- The line of a partial-JSON delta carrying a fragment to index 1. -/
def lineOtherIndex : String :=
  "\x7b\"type\":\"stream_event\",\"event\":\x7b\"type\":\"content_block_delta\",\"index\":1," ++
  "\"delta\":\x7b\"type\":\"input_json_delta\",\"partial_json\":\"[1,\"\x7d\x7d\x7d"

/-- The lines of `sampleEvents`. -/
def sampleLines : List String := [lineFragmentA, lineHello, lineOtherIndex, lineFragmentB]

/-- A state in which index 0 is open and holds `t`, every other index being absent. -/
def stateHolding (t : String) : State := ⟨setInput (fun _ => none) 0 (some t), "earlier text"⟩

/-- The line of an assistant turn whose only content item is the text `Done`. -/
def lineAssistantDone : String :=
  "\x7b\"type\":\"assistant\",\"message\":\x7b\"role\":\"assistant\",\"content\":" ++
  "[\x7b\"type\":\"text\",\"text\":\"Done\"\x7d]\x7d\x7d"

/-- The line of an assistant turn with a text item, a tool-use item and a second text item. -/
def lineAssistantMixed : String :=
  "\x7b\"type\":\"assistant\",\"message\":\x7b\"content\":[\x7b\"type\":\"text\",\"text\":\"Do\"\x7d," ++
  "\x7b\"type\":\"tool_use\",\"text\":\"skipped\"\x7d,\x7b\"type\":\"text\",\"text\":\"ne\"\x7d]\x7d\x7d"

/-- The line of an assistant envelope without message, carrying the error `boom`. -/
def lineAssistantError : String :=
  "\x7b\"type\":\"assistant\",\"error\":\"boom\"\x7d"

/-- The line of a failed result whose result text is `Done`. -/
def lineResultDone : String :=
  "\x7b\"type\":\"result\",\"is_error\":true,\"result\":\"Done\"\x7d"

/-- The line of a failed result whose result text is `Failed differently`. -/
def lineResultFailed : String :=
  "\x7b\"type\":\"result\",\"is_error\":true,\"result\":\"Failed differently\"\x7d"

/-- The line of a failed result without result text, whose error text is `boom`. -/
def lineResultBoom : String :=
  "\x7b\"type\":\"result\",\"subtype\":\"error\",\"is_error\":true,\"error\":\"boom\"\x7d"

/-- The message of `lineAssistantDone`. -/
def sampleMsgDone : AssistantMessage :=
  { Role := "assistant", Content := [{ Type_ := "text", Text := "Done" }] }

/-- The envelope `lineAssistantDone` decodes to. -/
def sampleEnvDone : AssistantEnvelope := { Type_ := "assistant", Message := some sampleMsgDone }

/-- The message of `lineAssistantMixed`. -/
def sampleMsgMixed : AssistantMessage :=
  { Content := [{ Type_ := "text", Text := "Do" }, { Type_ := "tool_use", Text := "skipped" },
                { Type_ := "text", Text := "ne" }] }

/-- The envelope `lineAssistantMixed` decodes to. -/
def sampleEnvMixed : AssistantEnvelope := { Type_ := "assistant", Message := some sampleMsgMixed }

/-- The envelope `lineAssistantError` decodes to. -/
def sampleEnvError : AssistantEnvelope := { Type_ := "assistant", Error := "boom" }

/-- The event `lineResultDone` decodes to. -/
def sampleResDone : ResultEvent := { Type_ := "result", IsError := true, Result := "Done" }

/-- The event `lineResultFailed` decodes to. -/
def sampleResFailed : ResultEvent :=
  { Type_ := "result", IsError := true, Result := "Failed differently" }

/-- The event `lineResultBoom` decodes to. -/
def sampleResBoom : ResultEvent :=
  { Type_ := "result", Subtype := "error", IsError := true, Error := "boom" }

/-- The checklist item with content `Task A` and status `completed`. -/
def itemTaskA : List (String × JSON) :=
  [("content", JSON.str "Task A"), ("status", JSON.str "completed")]

/-- The checklist item with content `Task B` and no status. -/
def itemTaskB : List (String × JSON) := [("content", JSON.str "Task B")]

/-- An item whose content is a number, with two more keys. -/
def itemNumberContent : List (String × JSON) :=
  [("id", JSON.str "x"), ("content", JSON.num "5"), ("status", JSON.str "in_progress")]

/-- A state in which index 0 holds `a` and index 1 holds `b`. -/
def stateTwo : State :=
  ⟨setInput (setInput (fun _ => none) 0 (some "a")) 1 (some "b"), "earlier text"⟩

theorem foldl_append_eq (a : String) (l : List String) :
    l.foldl (fun r s => r ++ s) a = a ++ l.foldl (fun r s => r ++ s) "" := by
  induction l generalizing a with
  | nil => simp
  | cons x xs ih =>
    simp only [List.foldl_cons, String.empty_append]
    rw [ih (a ++ x), ih x, String.append_assoc]

theorem join_cons (f : String) (fs : List String) :
    String.join (f :: fs) = f ++ String.join fs := by
  simp only [String.join, List.foldl_cons, String.empty_append]
  exact foldl_append_eq f fs

theorem setInput_same (m : Int → Option String) (i : Int) (v : Option String) :
    setInput m i v i = v := by
  simp [setInput]

theorem setInput_other (m : Int → Option String) (i j : Int) (v : Option String) (h : j ≠ i) :
    setInput m i v j = m j := by
  simp [setInput, h]

theorem switch_toolUseStart (lib : StdLib) (st : State) (i : Int) (name : String)
    (se : StreamEvent) (h : IsToolUseStart i name se) :
    streamEventSwitch lib st se =
      ({ st with toolInputs := setInput st.toolInputs i (some "") },
        ["\n" ++ Dim ++ "[Tool: " ++ BoldCyan ++ name ++ Dim ++ "]" ++ Reset ++ "\n"]) := by
  obtain ⟨h1, h2, cb, h3, h4, h5⟩ := h
  simp [streamEventSwitch, h1, h2, h3, h4, h5]

theorem switch_textDelta (lib : StdLib) (st : State) (t : String) (se : StreamEvent)
    (h : IsTextDelta t se) : streamEventSwitch lib st se = (st, [t]) := by
  obtain ⟨h1, d, h2, h3, h4⟩ := h
  simp [streamEventSwitch, h1, h2, h3, h4]

theorem switch_inputJSONDelta_open (lib : StdLib) (st : State) (i : Int) (f sb : String)
    (se : StreamEvent) (h : IsInputJSONDelta i f se) (hopen : st.toolInputs i = some sb) :
    streamEventSwitch lib st se =
      ({ st with toolInputs := setInput st.toolInputs i (some (sb ++ f)) }, silent) := by
  obtain ⟨h1, h2, d, h3, h4, h5⟩ := h
  simp [streamEventSwitch, h1, h2, h3, h4, h5, hopen]

theorem switch_inputJSONDelta_absent (lib : StdLib) (st : State) (i : Int) (f : String)
    (se : StreamEvent) (h : IsInputJSONDelta i f se) (habs : st.toolInputs i = none) :
    streamEventSwitch lib st se = (st, silent) := by
  obtain ⟨h1, h2, d, h3, h4, h5⟩ := h
  simp [streamEventSwitch, h1, h2, h3, h4, h5, habs]

theorem switch_stop_open (lib : StdLib) (st : State) (i : Int) (sb : String)
    (se : StreamEvent) (h : IsStop i se) (hopen : st.toolInputs i = some sb) :
    streamEventSwitch lib st se =
      ({ st with toolInputs := setInput st.toolInputs i none }, printPrettyParams lib sb) := by
  obtain ⟨h1, h2⟩ := h
  simp [streamEventSwitch, h1, h2, hopen]

theorem switch_stop_absent (lib : StdLib) (st : State) (i : Int)
    (se : StreamEvent) (h : IsStop i se) (habs : st.toolInputs i = none) :
    streamEventSwitch lib st se = (st, silent) := by
  obtain ⟨h1, h2⟩ := h
  simp [streamEventSwitch, h1, h2, habs]

/-- No stream event changes the last assistant text. -/
theorem switch_lastAssistantText (lib : StdLib) (st : State) (se : StreamEvent) :
    (streamEventSwitch lib st se).1.lastAssistantText = st.lastAssistantText := by
  unfold streamEventSwitch
  repeat' split
  all_goals rfl

/-- A stream event leaves the entries of the indices it is not addressed to as they are. -/
theorem switch_other_index (lib : StdLib) (st : State) (se : StreamEvent) (j : Int)
    (h : se.Index ≠ j) :
    (streamEventSwitch lib st se).1.toolInputs j = st.toolInputs j := by
  have hj : j ≠ se.Index := fun e => h e.symm
  unfold streamEventSwitch
  repeat' split
  all_goals first
    | rfl
    | exact setInput_other _ _ _ _ hj

/-- Running the events that carry `fs` to `i` appends `fs` to the text held for `i`. -/
theorem run_interleaves (lib : StdLib) (i : Int) (fs : List String) (evs : List StreamEvent)
    (h : Interleaves i fs evs) (st : State) (sb : String) (hopen : st.toolInputs i = some sb) :
    (runStreamEvents lib st evs).1.toolInputs i = some (sb ++ String.join fs) := by
  induction h generalizing st sb with
  | done => simpa [runStreamEvents, String.join] using hopen
  | @fragment f fs se evs hf _ ih =>
    simp only [runStreamEvents]
    rw [switch_inputJSONDelta_open lib st i f sb se hf hopen, join_cons, ← String.append_assoc]
    exact ih _ _ (setInput_same _ _ _)
  | @text t fs se evs ht _ ih =>
    simp only [runStreamEvents]
    rw [switch_textDelta lib st t se ht]
    exact ih _ _ hopen
  | @other fs se evs hne _ ih =>
    simp only [runStreamEvents]
    exact ih _ _ ((switch_other_index lib st se i hne).trans hopen)

theorem decodeBase_of_parse_none (line : String) (h : parseJSON line = none) :
    decodeBase line = none := by
  simp [decodeBase, h]

theorem parseJSON_empty : parseJSON "" = none := rfl

theorem processLine_of_decodeBase (lib : StdLib) (st : State) (line : String) (base : Base)
    (h : decodeBase line = some base) :
    processLine lib st line =
      if base.Type_ = "stream_event" then
        match decodeEvent line with
        | none => (st, silent)
        | some event => handleStreamEvent lib st event.Event_
      else if base.Type_ = "assistant" then handleAssistant st line
      else if base.Type_ = "result" then handleResult st line
      else (st, silent) := by
  have hne : line ≠ "" := by
    intro he
    subst he
    rw [decodeBase_of_parse_none "" parseJSON_empty] at h
    exact Option.noConfusion h
  simp only [processLine, hne, if_false, h]

/-- A line carrying a stream event is processed by the switch on that event. -/
theorem processLine_of_carries (lib : StdLib) (st : State) (line : String) (se : StreamEvent)
    (h : LineCarries lib line se) : processLine lib st line = streamEventSwitch lib st se := by
  obtain ⟨base, event, hb, ht, he, hs⟩ := h
  rw [processLine_of_decodeBase lib st line base hb]
  simp [ht, he, handleStreamEvent, hs]

/-- Lines carrying stream events are processed as the run of the switch over those events. -/
theorem processLines_of_carry (lib : StdLib) (lines : List String) (evs : List StreamEvent)
    (h : List.Forall₂ (LineCarries lib) lines evs) (st : State) :
    processLines lib st lines = runStreamEvents lib st evs := by
  induction h generalizing st with
  | nil => rfl
  | cons hline _ ih =>
    simp only [processLines, runStreamEvents]
    rw [processLine_of_carries lib st _ _ hline, ih]

/-- A line whose base decoding fails is skipped. -/
theorem processLine_of_decodeBase_none (lib : StdLib) (st : State) (line : String)
    (h : decodeBase line = none) : processLine lib st line = (st, silent) := by
  unfold processLine
  split
  · rfl
  · simp [h]

/-- Text that is not the JSON of an object is rendered as nothing. -/
theorem printPrettyParams_of_not_object (lib : StdLib) (t : String)
    (h : ∀ fields, parseJSON t ≠ some (JSON.obj fields)) : printPrettyParams lib t = silent := by
  unfold printPrettyParams decodeParams
  cases hp : parseJSON t with
  | none => rfl
  | some j =>
    cases j with
    | obj fields => exact absurd hp (h fields)
    | null => rfl
    | bool b => rfl
    | num lit => rfl
    | str s => rfl
    | arr items => rfl

theorem decodeFields_base_no_type (b : Base) (fields : List (String × JSON))
    (h : ∀ kv ∈ fields, fieldMatches "type" kv.1 = false) :
    decodeFields Base.setField b fields = some b := by
  induction fields with
  | nil => rfl
  | cons kv rest ih =>
    obtain ⟨k, v⟩ := kv
    have hk : fieldMatches "type" k = false := h (k, v) (List.mem_cons_self _ _)
    have hrest : ∀ kv ∈ rest, fieldMatches "type" kv.1 = false :=
      fun kv hkv => h kv (List.mem_cons_of_mem _ hkv)
    simp only [decodeFields, Base.setField, hk]
    exact ih hrest

theorem processLine_of_outerUnrecognised (lib : StdLib) (st : State) (line : String)
    (h : OuterUnrecognised line) : processLine lib st line = (st, silent) := by
  cases hb : decodeBase line with
  | none => exact processLine_of_decodeBase_none lib st line hb
  | some base =>
    obtain ⟨h1, h2, h3⟩ := h base hb
    rw [processLine_of_decodeBase lib st line base hb]
    simp [h1, h2, h3]

theorem switch_of_unrecognised (lib : StdLib) (st : State) (se : StreamEvent)
    (h1 : se.Type_ ≠ "content_block_start") (h2 : se.Type_ ≠ "content_block_delta")
    (h3 : se.Type_ ≠ "content_block_stop") : streamEventSwitch lib st se = (st, silent) := by
  simp [streamEventSwitch, h1, h2, h3]

/-- A line that is an assistant envelope is processed by the body of `handleAssistant`. -/
theorem processLine_of_assistant (lib : StdLib) (st : State) (line : String)
    (env : AssistantEnvelope) (h : LineIsAssistant line env) :
    processLine lib st line = assistantBody st env := by
  obtain ⟨base, hb, ht, he⟩ := h
  rw [processLine_of_decodeBase lib st line base hb]
  simp [ht, handleAssistant, he]

/-- A line that is a result envelope is processed by the body of `handleResult`. -/
theorem processLine_of_result (lib : StdLib) (st : State) (line : String)
    (res : ResultEvent) (h : LineIsResult line res) :
    processLine lib st line = resultBody st res := by
  obtain ⟨base, hb, ht, he⟩ := h
  rw [processLine_of_decodeBase lib st line base hb]
  simp [ht, handleResult, he]

theorem seq_silent_right (a : Outputs) : Outputs.seq a silent = a := by
  induction a with
  | nil => rfl
  | cons x xs ih =>
    simp only [Outputs.seq, silent, List.flatMap_cons, List.map_cons, List.map_nil,
      String.append_empty, List.singleton_append] at ih ⊢
    rw [ih]

theorem seq_silent_left (b : Outputs) : Outputs.seq silent b = b := by
  simp [Outputs.seq, silent]

theorem seq_singleton (x y : String) : Outputs.seq [x] [y] = [x ++ y] := by
  simp [Outputs.seq]

theorem processLines_pair (lib : StdLib) (st : State) (l1 l2 : String) :
    (processLines lib st [l1, l2]).2
      = Outputs.seq (processLine lib st l1).2 (processLine lib (processLine lib st l1).1 l2).2 := by
  simp only [processLines]
  rw [seq_silent_right]

theorem textOfKind_cons (c : AssistantContent) (cs : List AssistantContent) :
    textOfKind (c :: cs) = if c.Type_ = "text" then c.Text ++ textOfKind cs else textOfKind cs := by
  by_cases h : c.Type_ = "text"
  · simp [textOfKind, List.filter_cons, h, join_cons]
  · simp [textOfKind, List.filter_cons, h]

theorem assistantText_foldl (content : List AssistantContent) (sb : String) :
    content.foldl (fun sb item => if item.Type_ = "text" then sb ++ item.Text else sb) sb
      = sb ++ textOfKind content := by
  induction content generalizing sb with
  | nil => simp [textOfKind, String.join]
  | cons c cs ih =>
    rw [List.foldl_cons, ih, textOfKind_cons]
    by_cases h : c.Type_ = "text"
    · simp [h, String.append_assoc]
    · simp [h]

/-- The loop of `handleAssistant` gathers the text the specification describes. -/
theorem assistantText_eq_textOfKind (content : List AssistantContent) :
    assistantText content = textOfKind content := by
  unfold assistantText
  rw [assistantText_foldl]
  simp

/-- The body of `handleAssistant` on an envelope that carries a message. -/
theorem assistantBody_of_message (st : State) (env : AssistantEnvelope) (msg : AssistantMessage)
    (hmsg : env.Message = some msg) :
    assistantBody st env =
      if textOfKind msg.Content ≠ "" then
        ({ st with lastAssistantText := textOfKind msg.Content }, silent)
      else (st, silent) := by
  unfold assistantBody
  rw [hmsg]
  dsimp only
  rw [assistantText_eq_textOfKind]

/-- A printed error line is not the empty text. -/
theorem errorLine_ne_silent (msg : String) : [Red ++ msg ++ Reset ++ "\n"] ≠ silent := by
  intro h
  have hs : Red ++ msg ++ Reset ++ "\n" = "" := by simpa [silent] using h
  have hl := congrArg String.length hs
  simp only [String.length_append] at hl
  have h1 : "\n".length = 1 := rfl
  have h0 : "".length = 0 := rfl
  omega

theorem resultBody_state (st : State) (res : ResultEvent) : (resultBody st res).1 = st := by
  unfold resultBody
  dsimp only
  split_ifs <;> rfl

theorem resultBody_printed (st : State) (res : ResultEvent)
    (h : res.IsError = true ∧ chosenMessage res ≠ "" ∧ chosenMessage res ≠ st.lastAssistantText) :
    (resultBody st res).2 = [Red ++ chosenMessage res ++ Reset ++ "\n"] := by
  obtain ⟨h1, h2, h3⟩ := h
  unfold chosenMessage at h2 h3 ⊢
  simp [resultBody, h1, h2, h3]

theorem resultBody_suppressed (st : State) (res : ResultEvent)
    (h : ¬(res.IsError = true ∧ chosenMessage res ≠ "" ∧
      chosenMessage res ≠ st.lastAssistantText)) :
    (resultBody st res).2 = silent := by
  unfold chosenMessage at h
  unfold resultBody
  by_cases h1 : res.IsError = true
  · rw [if_pos h1]
    have h2 : ¬((if res.Result = "" then res.Error else res.Result) ≠ "" ∧
        (if res.Result = "" then res.Error else res.Result) ≠ st.lastAssistantText) :=
      fun hc => h ⟨h1, hc⟩
    simp only []
    rw [if_neg h2]
  · rw [if_neg h1]

/-- With a `content` key present, `printMapItem` writes the checklist line and nothing else. -/
theorem printMapItem_of_content (lib : StdLib) (m : List (String × JSON)) (v : JSON)
    (hv : List.lookup "content" m = some v) :
    printMapItem lib m
      = [checklistLine (asString (List.lookup "status" m)) (asString (some v))] := by
  unfold printMapItem checklistLine glyphOf colorOf
  rw [hv]

theorem asString_of_not_str (v : JSON) (h : ∀ s, v ≠ JSON.str s) : asString (some v) = "" := by
  cases v with
  | str s => exact absurd rfl (h s)
  | null => rfl
  | bool b => rfl
  | num lit => rfl
  | arr items => rfl
  | obj fields => rfl

theorem asString_status_other (o : Option JSON) (h1 : o ≠ some (JSON.str "completed"))
    (h2 : o ≠ some (JSON.str "in_progress")) :
    asString o ≠ "completed" ∧ asString o ≠ "in_progress" := by
  have hempty : ("" : String) ≠ "completed" ∧ ("" : String) ≠ "in_progress" :=
    ⟨by decide, by decide⟩
  cases o with
  | none => exact hempty
  | some v =>
    cases v with
    | str s =>
      refine ⟨fun h => h1 ?_, fun h => h2 ?_⟩
      · simp only [asString] at h
        rw [h]
      · simp only [asString] at h
        rw [h]
    | null => exact hempty
    | bool b => exact hempty
    | num lit => exact hempty
    | arr items => exact hempty
    | obj fields => exact hempty

/-- After one event, index `i` is open exactly when the event is a tool-use start for `i`, or
`i` was open and the event is not a stop for `i`. -/
theorem switch_open_iff (lib : StdLib) (st : State) (e : StreamEvent) (i : Int) :
    (streamEventSwitch lib st e).1.toolInputs i ≠ none ↔
      (∃ name, IsToolUseStart i name e) ∨ (st.toolInputs i ≠ none ∧ ¬IsStop i e) := by
  by_cases hidx : e.Index = i
  · subst hidx
    unfold streamEventSwitch IsToolUseStart IsStop
    by_cases h1 : e.Type_ = "content_block_start"
    · rw [if_pos h1]
      cases hcb : e.ContentBlock with
      | none => simp [h1]
      | some cb =>
        by_cases hk : cb.Type_ = "tool_use"
        · simp [h1, hk, setInput]
        · simp [h1, hk]
    · rw [if_neg h1]
      by_cases h2 : e.Type_ = "content_block_delta"
      · rw [if_pos h2]
        cases hd : e.Delta with
        | none => simp [h1, h2]
        | some d =>
          by_cases ht : d.Type_ = "text_delta"
          · simp [h1, h2, ht]
          · by_cases hj : d.Type_ = "input_json_delta"
            · cases hopen : st.toolInputs e.Index with
              | none => simp [h1, h2, ht, hj, hopen]
              | some sb => simp [h1, h2, ht, hj, hopen, setInput]
            · simp [h1, h2, ht, hj]
      · rw [if_neg h2]
        by_cases h3 : e.Type_ = "content_block_stop"
        · rw [if_pos h3]
          cases hopen : st.toolInputs e.Index with
          | none => simp [h1, h3, hopen]
          | some sb => simp [h1, h3, hopen, setInput]
        · rw [if_neg h3]
          simp [h1, h3]
  · rw [switch_other_index lib st e i hidx]
    have hs : ¬∃ name, IsToolUseStart i name e := fun ⟨_, h⟩ => hidx h.2.1
    have hp : ¬IsStop i e := fun h => hidx h.2
    simp [hs, hp]

theorem hasUnclosedStart_nil (i : Int) : ¬HasUnclosedStart i [] := by
  rintro ⟨pre, s, post, name, h, _, _⟩
  cases pre <;> cases h

theorem hasUnclosedStart_cons (i : Int) (e : StreamEvent) (rest : List StreamEvent) :
    HasUnclosedStart i (e :: rest) ↔
      ((∃ name, IsToolUseStart i name e) ∧ ∀ x ∈ rest, ¬IsStop i x) ∨
        HasUnclosedStart i rest := by
  constructor
  · rintro ⟨pre, s, post, name, h, hs, hpost⟩
    cases pre with
    | nil =>
      simp only [List.nil_append, List.cons.injEq] at h
      obtain ⟨rfl, rfl⟩ := h
      exact Or.inl ⟨⟨name, hs⟩, hpost⟩
    | cons p pre2 =>
      simp only [List.cons_append, List.cons.injEq] at h
      obtain ⟨_, rfl⟩ := h
      exact Or.inr ⟨pre2, s, post, name, rfl, hs, hpost⟩
  · rintro (⟨⟨name, hs⟩, hpost⟩ | ⟨pre, s, post, name, rfl, hs, hpost⟩)
    · exact ⟨[], e, rest, name, rfl, hs, hpost⟩
    · exact ⟨e :: pre, s, post, name, rfl, hs, hpost⟩

/-- After a run of events, index `i` is open exactly when the run holds a tool-use start for
`i` with no later stop for `i`, or `i` was open at first and the run holds no stop for `i`. -/
theorem run_open_iff (lib : StdLib) (i : Int) (evs : List StreamEvent) (st : State) :
    (runStreamEvents lib st evs).1.toolInputs i ≠ none ↔
      HasUnclosedStart i evs ∨ (st.toolInputs i ≠ none ∧ ∀ e ∈ evs, ¬IsStop i e) := by
  induction evs generalizing st with
  | nil =>
    have hn := hasUnclosedStart_nil i
    simp [runStreamEvents, hn]
  | cons e rest ih =>
    have hrun : (runStreamEvents lib st (e :: rest)).1
        = (runStreamEvents lib (streamEventSwitch lib st e).1 rest).1 := rfl
    rw [hrun, ih, switch_open_iff, hasUnclosedStart_cons]
    simp only [List.mem_cons, forall_eq_or_imp]
    tauto

theorem lineBreaks_append (a b : String) :
    lineBreaks (a ++ b) = lineBreaks a + lineBreaks b := by
  simp [lineBreaks, String.data_append, List.count_append]

theorem lineBreaks_join (rs : List String) :
    lineBreaks (String.join rs) = (rs.map lineBreaks).sum := by
  induction rs with
  | nil => rfl
  | cons r rs ih => rw [join_cons, lineBreaks_append, ih, List.map_cons, List.sum_cons]

theorem sampleEvents_interleaves :
    Interleaves 0 ["\x7b\"a\":", "\"b\"\x7d"] sampleEvents :=
  .fragment ⟨rfl, rfl, _, rfl, rfl, rfl⟩
    (.text ⟨rfl, _, rfl, rfl, rfl⟩
      (.other (by decide)
        (.fragment ⟨rfl, rfl, _, rfl, rfl, rfl⟩ .done)))

theorem sampleLines_carry : List.Forall₂ (LineCarries sampleLib) sampleLines sampleEvents :=
  .cons ⟨_, _, rfl, rfl, rfl, rfl⟩
    (.cons ⟨_, _, rfl, rfl, rfl, rfl⟩
      (.cons ⟨_, _, rfl, rfl, rfl, rfl⟩
        (.cons ⟨_, _, rfl, rfl, rfl, rfl⟩ .nil)))

theorem parseJSON_sampleArray :
    parseJSON "[1,2]" = some (JSON.arr [JSON.num "1", JSON.num "2"]) := rfl

theorem sampleArray_not_object (fields : List (String × JSON)) :
    parseJSON "[1,2]" ≠ some (JSON.obj fields) := by
  rw [parseJSON_sampleArray]
  intro h
  cases h

theorem parseJSON_sampleSystem :
    parseJSON "\x7b\"type\":\"system\",\"subtype\":\"init\"\x7d"
      = some (JSON.obj [("type", JSON.str "system"), ("subtype", JSON.str "init")]) := rfl

theorem sampleSystem_outerUnrecognised :
    OuterUnrecognised "\x7b\"type\":\"system\",\"subtype\":\"init\"\x7d" := by
  intro base hb
  have hd : decodeBase "\x7b\"type\":\"system\",\"subtype\":\"init\"\x7d"
      = some { Type_ := "system" } := rfl
  rw [hd] at hb
  cases hb
  exact ⟨by decide, by decide, by decide⟩

/-- C1: from a state in which index `i` is absent, the line of a tool-use start for `i`, then
lines whose events carry the fragments `fs` to `i` in order among text deltas and events for
other indices, leave the accumulator of `i` holding the concatenation of `fs`, and the line of
the stop for `i` writes what the pretty-printer writes for that concatenation. For the two
fragments of the object with key `a` and string value `b`, the decoded map has that single
entry, its rendering is the one line for it, and the four lines start, fragment, fragment, stop
write the header and that line. -/
theorem C1_tool_call_reassembly (lib : StdLib) (st : State) (i : Int) (name : String)
    (startLine stopLine : String) (start stop : StreamEvent) (fs : List String)
    (lines : List String) (evs : List StreamEvent)
    (_habs : st.toolInputs i = none)
    (hstartLine : LineCarries lib startLine start) (hstart : IsToolUseStart i name start)
    (hlines : List.Forall₂ (LineCarries lib) lines evs) (hmid : Interleaves i fs evs)
    (hstopLine : LineCarries lib stopLine stop) (hstop : IsStop i stop) :
    (processLines lib st (startLine :: lines)).1.toolInputs i = some (String.join fs) ∧
    (processLine lib (processLines lib st (startLine :: lines)).1 stopLine).2
      = printPrettyParams lib (String.join fs) ∧
    decodeParams lib (String.join ["\x7b\"a\":", "\"b\"\x7d"]) = some [("a", JSON.str "b")] ∧
    printPrettyParams lib (String.join ["\x7b\"a\":", "\"b\"\x7d"])
      = ["  " ++ Yellow ++ "a" ++ Reset ++ ": " ++ Green ++ "b" ++ Reset ++ "\n"] ∧
    (processLines lib State.init [lineStart, lineFragmentA, lineFragmentB, lineStop]).2
      = ["\n" ++ Dim ++ "[Tool: " ++ BoldCyan ++ "T" ++ Dim ++ "]" ++ Reset ++ "\n"
          ++ "  " ++ Yellow ++ "a" ++ Reset ++ ": " ++ Green ++ "b" ++ Reset ++ "\n"] := by
  have hrun : (processLines lib st (startLine :: lines)).1.toolInputs i
      = some (String.join fs) := by
    rw [processLines_of_carry lib (startLine :: lines) (start :: evs)
      (List.Forall₂.cons hstartLine hlines) st]
    simp only [runStreamEvents]
    rw [switch_toolUseStart lib st i name start hstart]
    have h := run_interleaves lib i fs evs hmid
      { st with toolInputs := setInput st.toolInputs i (some "") } "" (setInput_same _ _ _)
    simpa using h
  refine ⟨hrun, ?_, rfl, rfl, rfl⟩
  rw [processLine_of_carries lib _ stopLine stop hstopLine,
    switch_stop_open lib _ i _ stop hstop hrun]

/-- C1 at the sample lines, from the initial state. -/
theorem C1_tool_call_reassembly_witness :
    State.init.toolInputs 0 = none ∧
    LineCarries sampleLib lineStart sampleStart ∧ IsToolUseStart 0 "T" sampleStart ∧
    List.Forall₂ (LineCarries sampleLib) sampleLines sampleEvents ∧
    Interleaves 0 ["\x7b\"a\":", "\"b\"\x7d"] sampleEvents ∧
    LineCarries sampleLib lineStop (sampleStop 0) ∧ IsStop 0 (sampleStop 0) ∧
    ((processLines sampleLib State.init (lineStart :: sampleLines)).1.toolInputs 0
        = some (String.join ["\x7b\"a\":", "\"b\"\x7d"]) ∧
      (processLine sampleLib (processLines sampleLib State.init (lineStart :: sampleLines)).1
          lineStop).2
        = printPrettyParams sampleLib (String.join ["\x7b\"a\":", "\"b\"\x7d"]) ∧
      decodeParams sampleLib (String.join ["\x7b\"a\":", "\"b\"\x7d"])
        = some [("a", JSON.str "b")] ∧
      printPrettyParams sampleLib (String.join ["\x7b\"a\":", "\"b\"\x7d"])
        = ["  " ++ Yellow ++ "a" ++ Reset ++ ": " ++ Green ++ "b" ++ Reset ++ "\n"] ∧
      (processLines sampleLib State.init [lineStart, lineFragmentA, lineFragmentB, lineStop]).2
        = ["\n" ++ Dim ++ "[Tool: " ++ BoldCyan ++ "T" ++ Dim ++ "]" ++ Reset ++ "\n"
            ++ "  " ++ Yellow ++ "a" ++ Reset ++ ": " ++ Green ++ "b" ++ Reset ++ "\n"]) :=
  ⟨rfl, ⟨_, _, rfl, rfl, rfl, rfl⟩, ⟨rfl, rfl, _, rfl, rfl, rfl⟩, sampleLines_carry,
    sampleEvents_interleaves, ⟨_, _, rfl, rfl, rfl, rfl⟩, ⟨rfl, rfl⟩,
    C1_tool_call_reassembly sampleLib State.init 0 "T" lineStart lineStop sampleStart
      (sampleStop 0) ["\x7b\"a\":", "\"b\"\x7d"] sampleLines sampleEvents rfl
      ⟨_, _, rfl, rfl, rfl, rfl⟩ ⟨rfl, rfl, _, rfl, rfl, rfl⟩ sampleLines_carry
      sampleEvents_interleaves ⟨_, _, rfl, rfl, rfl, rfl⟩ ⟨rfl, rfl⟩⟩

/-- C2: a line carrying a `content_block_stop` for an index that has no open accumulator writes
nothing and leaves the state, that is the index mapping and the last assistant text, as it
was. -/
theorem C2_stop_without_accumulator (lib : StdLib) (st : State) (i : Int) (line : String)
    (se : StreamEvent) (hline : LineCarries lib line se) (hstop : IsStop i se)
    (habs : st.toolInputs i = none) :
    (processLine lib st line).2 = silent ∧
    (processLine lib st line).1.toolInputs = st.toolInputs ∧
    (processLine lib st line).1.lastAssistantText = st.lastAssistantText := by
  rw [processLine_of_carries lib st line se hline, switch_stop_absent lib st i se hstop habs]
  exact ⟨rfl, rfl, rfl⟩

/-- C2 at the stop line for index 0, from the initial state. -/
theorem C2_stop_without_accumulator_witness :
    LineCarries sampleLib lineStop (sampleStop 0) ∧ IsStop 0 (sampleStop 0) ∧
    State.init.toolInputs 0 = none ∧
    ((processLine sampleLib State.init lineStop).2 = silent ∧
      (processLine sampleLib State.init lineStop).1.toolInputs = State.init.toolInputs ∧
      (processLine sampleLib State.init lineStop).1.lastAssistantText
        = State.init.lastAssistantText) :=
  ⟨⟨_, _, rfl, rfl, rfl, rfl⟩, ⟨rfl, rfl⟩, rfl,
    C2_stop_without_accumulator sampleLib State.init 0 lineStop (sampleStop 0)
      ⟨_, _, rfl, rfl, rfl, rfl⟩ ⟨rfl, rfl⟩ rfl⟩

/-- C3: when the accumulator of `i` holds text that is the JSON of an object, a line carrying
the stop for `i` leaves no entry for `i` in the mapping, and the entry of every other index is
as before. -/
theorem C3_stop_drains_accumulator (lib : StdLib) (st : State) (i : Int) (line : String)
    (se : StreamEvent) (t : String) (fields : List (String × JSON))
    (hline : LineCarries lib line se) (hstop : IsStop i se)
    (hopen : st.toolInputs i = some t) (_hvalid : parseJSON t = some (JSON.obj fields)) :
    (processLine lib st line).1.toolInputs i = none ∧
    ∀ j, j ≠ i → (processLine lib st line).1.toolInputs j = st.toolInputs j := by
  rw [processLine_of_carries lib st line se hline, switch_stop_open lib st i t se hstop hopen]
  exact ⟨setInput_same _ _ _, fun j hj => setInput_other _ _ _ _ hj⟩

/-- C3 at the stop line for index 0, the accumulator holding the object with key `a`. -/
theorem C3_stop_drains_accumulator_witness :
    LineCarries sampleLib lineStop (sampleStop 0) ∧ IsStop 0 (sampleStop 0) ∧
    (stateHolding "\x7b\"a\":\"b\"\x7d").toolInputs 0 = some "\x7b\"a\":\"b\"\x7d" ∧
    parseJSON "\x7b\"a\":\"b\"\x7d" = some (JSON.obj [("a", JSON.str "b")]) ∧
    ((processLine sampleLib (stateHolding "\x7b\"a\":\"b\"\x7d") lineStop).1.toolInputs 0 = none ∧
      ∀ j, j ≠ 0 →
        (processLine sampleLib (stateHolding "\x7b\"a\":\"b\"\x7d") lineStop).1.toolInputs j
          = (stateHolding "\x7b\"a\":\"b\"\x7d").toolInputs j) :=
  ⟨⟨_, _, rfl, rfl, rfl, rfl⟩, ⟨rfl, rfl⟩, rfl, rfl,
    C3_stop_drains_accumulator sampleLib (stateHolding "\x7b\"a\":\"b\"\x7d") 0 lineStop
      (sampleStop 0) "\x7b\"a\":\"b\"\x7d" [("a", JSON.str "b")]
      ⟨_, _, rfl, rfl, rfl, rfl⟩ ⟨rfl, rfl⟩ rfl rfl⟩

/-- C4: for text that does not parse as a JSON object (malformed, cut short, empty, or a JSON
value that is not an object), the pretty-printer writes nothing, and so does a line carrying the
stop for an index whose accumulator holds that text. -/
theorem C4_no_partial_render (lib : StdLib) (t : String)
    (h : ∀ fields, parseJSON t ≠ some (JSON.obj fields)) :
    printPrettyParams lib t = silent ∧
    ∀ (st : State) (i : Int) (line : String) (se : StreamEvent),
      LineCarries lib line se → IsStop i se → st.toolInputs i = some t →
        (processLine lib st line).2 = silent := by
  refine ⟨printPrettyParams_of_not_object lib t h, ?_⟩
  intro st i line se hline hstop hopen
  rw [processLine_of_carries lib st line se hline, switch_stop_open lib st i t se hstop hopen]
  exact printPrettyParams_of_not_object lib t h

/-- C4 at the text of an array. -/
theorem C4_no_partial_render_witness :
    (∀ fields, parseJSON "[1,2]" ≠ some (JSON.obj fields)) ∧
    (printPrettyParams sampleLib "[1,2]" = silent ∧
      ∀ (st : State) (i : Int) (line : String) (se : StreamEvent),
        LineCarries sampleLib line se → IsStop i se → st.toolInputs i = some "[1,2]" →
          (processLine sampleLib st line).2 = silent) :=
  ⟨sampleArray_not_object, C4_no_partial_render sampleLib "[1,2]" sampleArray_not_object⟩

/-- C5, as the claim states it, fails: the accumulator of index 0 holds text cut short, and the
stop for index 0 changes the index mapping. -/
theorem C5_counterexample :
    LineCarries sampleLib lineStop (sampleStop 0) ∧ IsStop 0 (sampleStop 0) ∧
    (stateHolding "\x7b\"a\":").toolInputs 0 = some "\x7b\"a\":" ∧
    parseJSON "\x7b\"a\":" = none ∧
    (processLine sampleLib (stateHolding "\x7b\"a\":") lineStop).1.toolInputs 0 = none ∧
    (processLine sampleLib (stateHolding "\x7b\"a\":") lineStop).1.toolInputs
      ≠ (stateHolding "\x7b\"a\":").toolInputs :=
  ⟨⟨_, _, rfl, rfl, rfl, rfl⟩, ⟨rfl, rfl⟩, rfl, rfl, rfl,
    fun h => Option.noConfusion (congrFun h 0 : (none : Option String) = some "\x7b\"a\":")⟩

/-- C5, amended: when the accumulator of `i` holds text that fails to parse as JSON, a line
carrying the stop for `i` writes nothing and leaves the last assistant text and the entry of
every other index as they were, and the entry of `i` is removed from the mapping. -/
theorem C5_stop_on_invalid_text (lib : StdLib) (st : State) (i : Int) (line : String)
    (se : StreamEvent) (t : String) (hline : LineCarries lib line se) (hstop : IsStop i se)
    (hopen : st.toolInputs i = some t) (hfail : parseJSON t = none) :
    (processLine lib st line).2 = silent ∧
    (processLine lib st line).1.toolInputs = setInput st.toolInputs i none ∧
    (processLine lib st line).1.toolInputs i = none ∧
    (∀ j, j ≠ i → (processLine lib st line).1.toolInputs j = st.toolInputs j) ∧
    (processLine lib st line).1.lastAssistantText = st.lastAssistantText := by
  rw [processLine_of_carries lib st line se hline, switch_stop_open lib st i t se hstop hopen]
  refine ⟨?_, rfl, setInput_same _ _ _, fun j hj => setInput_other _ _ _ _ hj, rfl⟩
  apply printPrettyParams_of_not_object
  intro fields hp
  rw [hfail] at hp
  cases hp

/-- C5, amended, at the stop line for index 0, the accumulator holding text cut short. -/
theorem C5_stop_on_invalid_text_witness :
    LineCarries sampleLib lineStop (sampleStop 0) ∧ IsStop 0 (sampleStop 0) ∧
    (stateHolding "\x7b\"a\":").toolInputs 0 = some "\x7b\"a\":" ∧
    parseJSON "\x7b\"a\":" = none ∧
    ((processLine sampleLib (stateHolding "\x7b\"a\":") lineStop).2 = silent ∧
      (processLine sampleLib (stateHolding "\x7b\"a\":") lineStop).1.toolInputs
        = setInput (stateHolding "\x7b\"a\":").toolInputs 0 none ∧
      (processLine sampleLib (stateHolding "\x7b\"a\":") lineStop).1.toolInputs 0 = none ∧
      (∀ j, j ≠ 0 →
        (processLine sampleLib (stateHolding "\x7b\"a\":") lineStop).1.toolInputs j
          = (stateHolding "\x7b\"a\":").toolInputs j) ∧
      (processLine sampleLib (stateHolding "\x7b\"a\":") lineStop).1.lastAssistantText
        = (stateHolding "\x7b\"a\":").lastAssistantText) :=
  ⟨⟨_, _, rfl, rfl, rfl, rfl⟩, ⟨rfl, rfl⟩, rfl, rfl,
    C5_stop_on_invalid_text sampleLib (stateHolding "\x7b\"a\":") 0 lineStop (sampleStop 0)
      "\x7b\"a\":" ⟨_, _, rfl, rfl, rfl, rfl⟩ ⟨rfl, rfl⟩ rfl rfl⟩

/-- C6: a line carrying a `content_block_delta` of kind `text_delta` with text `t`, whatever its
index, writes exactly `t` and leaves the state as it was; the line whose text delta is `Hello`
writes exactly `Hello`. -/
theorem C6_text_delta_verbatim (lib : StdLib) (st : State) (line : String) (se : StreamEvent)
    (t : String) (hline : LineCarries lib line se) (htext : IsTextDelta t se) :
    processLine lib st line = (st, [t]) ∧ processLine lib st lineHello = (st, ["Hello"]) := by
  rw [processLine_of_carries lib st line se hline, switch_textDelta lib st t se htext]
  exact ⟨rfl, rfl⟩

/-- C6 at the line whose text delta is `Hello`. -/
theorem C6_text_delta_verbatim_witness :
    LineCarries sampleLib lineHello (sampleText 0 "Hello") ∧
    IsTextDelta "Hello" (sampleText 0 "Hello") ∧
    (processLine sampleLib (stateHolding "[") lineHello = (stateHolding "[", ["Hello"]) ∧
      processLine sampleLib (stateHolding "[") lineHello = (stateHolding "[", ["Hello"])) :=
  ⟨⟨_, _, rfl, rfl, rfl, rfl⟩, ⟨rfl, _, rfl, rfl, rfl⟩,
    C6_text_delta_verbatim sampleLib (stateHolding "[") lineHello (sampleText 0 "Hello") "Hello"
      ⟨_, _, rfl, rfl, rfl, rfl⟩ ⟨rfl, _, rfl, rfl, rfl⟩⟩

/-- C7: a line that is not well-formed JSON writes nothing and leaves the state, every
accumulator and the last assistant text, as it was. -/
theorem C7_malformed_line_ignored (lib : StdLib) (st : State) (line : String)
    (h : parseJSON line = none) : processLine lib st line = (st, silent) :=
  processLine_of_decodeBase_none lib st line (decodeBase_of_parse_none line h)

/-- C7 at a line cut short, with an accumulator open. -/
theorem C7_malformed_line_ignored_witness :
    parseJSON "\x7b\"type\":\"resu" = none ∧
    processLine sampleLib (stateHolding "[") "\x7b\"type\":\"resu" = (stateHolding "[", silent) :=
  ⟨rfl, C7_malformed_line_ignored sampleLib (stateHolding "[") "\x7b\"type\":\"resu" rfl⟩

/-- C8: a well-formed line is processed without output and without change of state when its
outer discriminator is absent, or is read as none of `stream_event`, `assistant`, `result`
(a discriminator that is not a string is not read at all), or when the line is a `stream_event`
whose nested discriminator is none of `content_block_start`, `content_block_delta`,
`content_block_stop`. -/
theorem C8_unrecognised_ignored (lib : StdLib) (st : State) (line : String) (j : JSON)
    (hwf : parseJSON line = some j)
    (h : NoTypeField j ∨ OuterUnrecognised line ∨ NestedUnrecognised lib line) :
    processLine lib st line = (st, silent) := by
  rcases h with ⟨fields, hj, hno⟩ | hout | ⟨base, event, hb, ht, he, hnested⟩
  · have hb : decodeBase line = some {} := by
      simp only [decodeBase, hwf, hj, setStruct]
      exact decodeFields_base_no_type {} fields hno
    rw [processLine_of_decodeBase lib st line {} hb]
    rfl
  · exact processLine_of_outerUnrecognised lib st line hout
  · rw [processLine_of_decodeBase lib st line base hb]
    simp only [ht, if_true, he, handleStreamEvent]
    cases hs : decodeStreamEvent lib event.Event_ with
    | none => rfl
    | some se =>
      obtain ⟨h1, h2, h3⟩ := hnested se hs
      exact switch_of_unrecognised lib st se h1 h2 h3

/-- C8 at a line whose discriminator is `system`. -/
theorem C8_unrecognised_ignored_witness :
    parseJSON "\x7b\"type\":\"system\",\"subtype\":\"init\"\x7d"
      = some (JSON.obj [("type", JSON.str "system"), ("subtype", JSON.str "init")]) ∧
    (NoTypeField (JSON.obj [("type", JSON.str "system"), ("subtype", JSON.str "init")]) ∨
      OuterUnrecognised "\x7b\"type\":\"system\",\"subtype\":\"init\"\x7d" ∨
      NestedUnrecognised sampleLib "\x7b\"type\":\"system\",\"subtype\":\"init\"\x7d") ∧
    processLine sampleLib (stateHolding "[") "\x7b\"type\":\"system\",\"subtype\":\"init\"\x7d"
      = (stateHolding "[", silent) :=
  ⟨parseJSON_sampleSystem, Or.inr (Or.inl sampleSystem_outerUnrecognised),
    C8_unrecognised_ignored sampleLib (stateHolding "[")
      "\x7b\"type\":\"system\",\"subtype\":\"init\"\x7d" _ parseJSON_sampleSystem
      (Or.inr (Or.inl sampleSystem_outerUnrecognised))⟩

/-- C9: a line carrying a `content_block_start` of kind `tool_use` for index `i` naming the
tool `n` leaves `i` open with an empty accumulator (every other entry and the last assistant
text as before) and writes a line break and then the one header line: the dim code, `[Tool: `,
the bold cyan code, `n`, the dim code, `]`, the reset code. A line carrying a
`content_block_start` of another kind, or without block descriptor, writes nothing and changes
no state. -/
theorem C9_block_start (lib : StdLib) (st : State) (i : Int) (n : String)
    (line line2 : String) (se se2 : StreamEvent)
    (hline : LineCarries lib line se) (hstart : IsToolUseStart i n se)
    (hline2 : LineCarries lib line2 se2) (hkind : se2.Type_ = "content_block_start")
    (hother : ∀ cb, se2.ContentBlock = some cb → cb.Type_ ≠ "tool_use") :
    ((processLine lib st line).1.toolInputs i = some "" ∧
      (∀ j, j ≠ i → (processLine lib st line).1.toolInputs j = st.toolInputs j) ∧
      (processLine lib st line).1.lastAssistantText = st.lastAssistantText ∧
      (processLine lib st line).2
        = ["\n" ++ Dim ++ "[Tool: " ++ BoldCyan ++ n ++ Dim ++ "]" ++ Reset ++ "\n"]) ∧
    processLine lib st line2 = (st, silent) := by
  rw [processLine_of_carries lib st line se hline, switch_toolUseStart lib st i n se hstart,
    processLine_of_carries lib st line2 se2 hline2]
  refine ⟨⟨setInput_same _ _ _, fun j hj => setInput_other _ _ _ _ hj, rfl, rfl⟩, ?_⟩
  unfold streamEventSwitch
  rw [if_pos hkind]
  cases hcb : se2.ContentBlock with
  | none => rfl
  | some cb => simp [hother cb hcb]

/-- C9 at the tool-use start line for index 0 and at the text start line. -/
theorem C9_block_start_witness :
    LineCarries sampleLib lineStart
      { Type_ := "content_block_start", Index := 0,
        ContentBlock := some { Type_ := "tool_use", ID := "tu_1", Name := "T",
                               Input := JSON.obj [] } } ∧
    IsToolUseStart 0 "T"
      { Type_ := "content_block_start", Index := 0,
        ContentBlock := some { Type_ := "tool_use", ID := "tu_1", Name := "T",
                               Input := JSON.obj [] } } ∧
    LineCarries sampleLib lineTextStart
      { Type_ := "content_block_start", Index := 0, ContentBlock := some { Type_ := "text" } } ∧
    ((processLine sampleLib (stateHolding "[") lineStart).1.toolInputs 0 = some "" ∧
      (∀ j, j ≠ 0 → (processLine sampleLib (stateHolding "[") lineStart).1.toolInputs j
        = (stateHolding "[").toolInputs j) ∧
      (processLine sampleLib (stateHolding "[") lineStart).1.lastAssistantText
        = (stateHolding "[").lastAssistantText ∧
      (processLine sampleLib (stateHolding "[") lineStart).2
        = ["\n" ++ Dim ++ "[Tool: " ++ BoldCyan ++ "T" ++ Dim ++ "]" ++ Reset ++ "\n"]) ∧
    processLine sampleLib (stateHolding "[") lineTextStart = (stateHolding "[", silent) :=
  ⟨⟨_, _, rfl, rfl, rfl, rfl⟩, ⟨rfl, rfl, _, rfl, rfl, rfl⟩, ⟨_, _, rfl, rfl, rfl, rfl⟩,
    C9_block_start sampleLib (stateHolding "[") 0 "T" lineStart lineTextStart _ _
      ⟨_, _, rfl, rfl, rfl, rfl⟩ ⟨rfl, rfl, _, rfl, rfl, rfl⟩ ⟨_, _, rfl, rfl, rfl, rfl⟩ rfl
      (fun cb hcb => by cases hcb; decide)⟩

/-- C10: a line carrying a `content_block_delta` of kind `input_json_delta` with fragment `f`
for index `i` writes nothing; if `i` has an accumulator, its text becomes the old text followed
by `f` and nothing else changes; if it has none, the state is unchanged, so no accumulator is
created. -/
theorem C10_input_json_delta (lib : StdLib) (st : State) (i : Int) (f : String) (line : String)
    (se : StreamEvent) (hline : LineCarries lib line se) (hdelta : IsInputJSONDelta i f se) :
    (processLine lib st line).2 = silent ∧
    (∀ sb, st.toolInputs i = some sb →
      (processLine lib st line).1.toolInputs i = some (sb ++ f) ∧
      (∀ j, j ≠ i → (processLine lib st line).1.toolInputs j = st.toolInputs j) ∧
      (processLine lib st line).1.lastAssistantText = st.lastAssistantText) ∧
    (st.toolInputs i = none → (processLine lib st line).1 = st) := by
  rw [processLine_of_carries lib st line se hline]
  refine ⟨?_, ?_, ?_⟩
  · cases hopen : st.toolInputs i with
    | none => rw [switch_inputJSONDelta_absent lib st i f se hdelta hopen]
    | some sb => rw [switch_inputJSONDelta_open lib st i f sb se hdelta hopen]
  · intro sb hopen
    rw [switch_inputJSONDelta_open lib st i f sb se hdelta hopen]
    exact ⟨setInput_same _ _ _, fun j hj => setInput_other _ _ _ _ hj, rfl⟩
  · intro habs
    rw [switch_inputJSONDelta_absent lib st i f se hdelta habs]

/-- C10 at the line carrying the second fragment to index 0, the accumulator holding the
first. -/
theorem C10_input_json_delta_witness :
    LineCarries sampleLib lineFragmentB (sampleFragment 0 "\"b\"\x7d") ∧
    IsInputJSONDelta 0 "\"b\"\x7d" (sampleFragment 0 "\"b\"\x7d") ∧
    ((processLine sampleLib (stateHolding "\x7b\"a\":") lineFragmentB).2 = silent ∧
      (∀ sb, (stateHolding "\x7b\"a\":").toolInputs 0 = some sb →
        (processLine sampleLib (stateHolding "\x7b\"a\":") lineFragmentB).1.toolInputs 0
          = some (sb ++ "\"b\"\x7d") ∧
        (∀ j, j ≠ 0 →
          (processLine sampleLib (stateHolding "\x7b\"a\":") lineFragmentB).1.toolInputs j
            = (stateHolding "\x7b\"a\":").toolInputs j) ∧
        (processLine sampleLib (stateHolding "\x7b\"a\":") lineFragmentB).1.lastAssistantText
          = (stateHolding "\x7b\"a\":").lastAssistantText) ∧
      ((stateHolding "\x7b\"a\":").toolInputs 0 = none →
        (processLine sampleLib (stateHolding "\x7b\"a\":") lineFragmentB).1
          = stateHolding "\x7b\"a\":")) :=
  ⟨⟨_, _, rfl, rfl, rfl, rfl⟩, ⟨rfl, rfl, _, rfl, rfl, rfl⟩,
    C10_input_json_delta sampleLib (stateHolding "\x7b\"a\":") 0 "\"b\"\x7d" lineFragmentB
      (sampleFragment 0 "\"b\"\x7d") ⟨_, _, rfl, rfl, rfl, rfl⟩ ⟨rfl, rfl, _, rfl, rfl, rfl⟩⟩

/-- C11: a line that is an assistant envelope carrying a message writes nothing and leaves the
accumulators as they were; with `t` the texts of exactly the content items of kind `text`,
joined in order without separator, the last assistant text becomes `t` when `t` is not empty
and stays as it was when `t` is empty. For the message with items text `Do`, a tool-use item
and text `ne`, the last assistant text becomes `Done`. -/
theorem C11_assistant_text_remembered (lib : StdLib) (st : State) (line : String)
    (env : AssistantEnvelope) (msg : AssistantMessage)
    (hline : LineIsAssistant line env) (hmsg : env.Message = some msg) :
    (processLine lib st line).2 = silent ∧
    (processLine lib st line).1.toolInputs = st.toolInputs ∧
    (textOfKind msg.Content ≠ "" →
      (processLine lib st line).1.lastAssistantText = textOfKind msg.Content) ∧
    (textOfKind msg.Content = "" →
      (processLine lib st line).1.lastAssistantText = st.lastAssistantText) ∧
    (processLine lib st lineAssistantMixed).1.lastAssistantText = "Done" := by
  rw [processLine_of_assistant lib st line env hline, assistantBody_of_message st env msg hmsg]
  by_cases ht : textOfKind msg.Content = ""
  · rw [if_neg (fun h => h ht)]
    exact ⟨rfl, rfl, fun h => absurd ht h, fun _ => rfl, rfl⟩
  · rw [if_pos ht]
    exact ⟨rfl, rfl, fun _ => rfl, fun h => absurd h ht, rfl⟩

/-- C11 at the line with two text items around a tool-use item. -/
theorem C11_assistant_text_remembered_witness :
    LineIsAssistant lineAssistantMixed sampleEnvMixed ∧
    sampleEnvMixed.Message = some sampleMsgMixed ∧
    ((processLine sampleLib (stateHolding "[") lineAssistantMixed).2 = silent ∧
      (processLine sampleLib (stateHolding "[") lineAssistantMixed).1.toolInputs
        = (stateHolding "[").toolInputs ∧
      (textOfKind sampleMsgMixed.Content ≠ "" →
        (processLine sampleLib (stateHolding "[") lineAssistantMixed).1.lastAssistantText
          = textOfKind sampleMsgMixed.Content) ∧
      (textOfKind sampleMsgMixed.Content = "" →
        (processLine sampleLib (stateHolding "[") lineAssistantMixed).1.lastAssistantText
          = (stateHolding "[").lastAssistantText) ∧
      (processLine sampleLib (stateHolding "[") lineAssistantMixed).1.lastAssistantText
        = "Done") :=
  ⟨⟨_, rfl, rfl, rfl⟩, rfl,
    C11_assistant_text_remembered sampleLib (stateHolding "[") lineAssistantMixed sampleEnvMixed
      sampleMsgMixed ⟨_, rfl, rfl, rfl⟩ rfl⟩

/-- C12: for a non-empty `e`, a line that is an assistant envelope without message and with the
top-level error `e` writes `e` once, in red, and makes `e` the last assistant text; a result
line that follows at once, with the error flag set and `e` as its chosen message, writes
nothing, so the two lines together write the one red line. -/
theorem C12_error_shown_once (lib : StdLib) (st : State) (e : String) (line1 line2 : String)
    (env : AssistantEnvelope) (res : ResultEvent) (hne : e ≠ "")
    (h1 : LineIsAssistant line1 env) (hmsg : env.Message = none) (herr : env.Error = e)
    (h2 : LineIsResult line2 res) (_hflag : res.IsError = true)
    (hchosen : chosenMessage res = e) :
    (processLine lib st line1).2 = [Red ++ e ++ Reset ++ "\n"] ∧
    (processLine lib st line1).1.lastAssistantText = e ∧
    (processLine lib st line1).1.toolInputs = st.toolInputs ∧
    (processLine lib (processLine lib st line1).1 line2).2 = silent ∧
    (processLines lib st [line1, line2]).2 = [Red ++ e ++ Reset ++ "\n"] := by
  have hfirst : processLine lib st line1
      = ({ st with lastAssistantText := e }, [Red ++ e ++ Reset ++ "\n"]) := by
    rw [processLine_of_assistant lib st line1 env h1]
    unfold assistantBody
    rw [hmsg, herr]
    dsimp only
    rw [if_pos hne]
  have hsecond : (processLine lib { st with lastAssistantText := e } line2).2 = silent := by
    rw [processLine_of_result lib _ line2 res h2]
    apply resultBody_suppressed
    intro hc
    exact hc.2.2 hchosen
  rw [processLines_pair, hfirst]
  refine ⟨rfl, rfl, rfl, hsecond, ?_⟩
  rw [hsecond, seq_silent_right]

/-- C12 at the error `boom`. -/
theorem C12_error_shown_once_witness :
    "boom" ≠ "" ∧ LineIsAssistant lineAssistantError sampleEnvError ∧
    sampleEnvError.Message = none ∧ sampleEnvError.Error = "boom" ∧
    LineIsResult lineResultBoom sampleResBoom ∧ sampleResBoom.IsError = true ∧
    chosenMessage sampleResBoom = "boom" ∧
    ((processLine sampleLib State.init lineAssistantError).2 = [Red ++ "boom" ++ Reset ++ "\n"] ∧
      (processLine sampleLib State.init lineAssistantError).1.lastAssistantText = "boom" ∧
      (processLine sampleLib State.init lineAssistantError).1.toolInputs
        = State.init.toolInputs ∧
      (processLine sampleLib (processLine sampleLib State.init lineAssistantError).1
        lineResultBoom).2 = silent ∧
      (processLines sampleLib State.init [lineAssistantError, lineResultBoom]).2
        = [Red ++ "boom" ++ Reset ++ "\n"]) :=
  ⟨by decide, ⟨_, rfl, rfl, rfl⟩, rfl, rfl, ⟨_, rfl, rfl, rfl⟩, rfl, rfl,
    C12_error_shown_once sampleLib State.init "boom" lineAssistantError lineResultBoom
      sampleEnvError sampleResBoom (by decide) ⟨_, rfl, rfl, rfl⟩ rfl rfl ⟨_, rfl, rfl, rfl⟩
      rfl rfl⟩

/-- C13: a line that is a result envelope leaves the state as it was, and with `msg` the result
text if that is not empty and the error text otherwise, it writes the one red line of `msg`
when the error flag is set, `msg` is not empty and `msg` differs from the last assistant text,
and writes nothing in every other case; so something is written exactly under that
condition. -/
theorem C13_result_printed_iff (lib : StdLib) (st : State) (line : String) (res : ResultEvent)
    (hline : LineIsResult line res) :
    (processLine lib st line).1 = st ∧
    ((res.IsError = true ∧ chosenMessage res ≠ "" ∧ chosenMessage res ≠ st.lastAssistantText) →
      (processLine lib st line).2 = [Red ++ chosenMessage res ++ Reset ++ "\n"]) ∧
    (¬(res.IsError = true ∧ chosenMessage res ≠ "" ∧
        chosenMessage res ≠ st.lastAssistantText) →
      (processLine lib st line).2 = silent) ∧
    ((processLine lib st line).2 ≠ silent ↔
      (res.IsError = true ∧ chosenMessage res ≠ "" ∧
        chosenMessage res ≠ st.lastAssistantText)) := by
  rw [processLine_of_result lib st line res hline]
  refine ⟨resultBody_state st res, resultBody_printed st res, resultBody_suppressed st res, ?_⟩
  constructor
  · intro hout
    by_contra hc
    exact hout (resultBody_suppressed st res hc)
  · intro hc
    rw [resultBody_printed st res hc]
    exact errorLine_ne_silent _

/-- C13 at the failed result line, the last assistant text being another text. -/
theorem C13_result_printed_iff_witness :
    LineIsResult lineResultFailed sampleResFailed ∧
    ((processLine sampleLib (stateHolding "[") lineResultFailed).1 = stateHolding "[" ∧
      ((sampleResFailed.IsError = true ∧ chosenMessage sampleResFailed ≠ "" ∧
          chosenMessage sampleResFailed ≠ (stateHolding "[").lastAssistantText) →
        (processLine sampleLib (stateHolding "[") lineResultFailed).2
          = [Red ++ chosenMessage sampleResFailed ++ Reset ++ "\n"]) ∧
      (¬(sampleResFailed.IsError = true ∧ chosenMessage sampleResFailed ≠ "" ∧
          chosenMessage sampleResFailed ≠ (stateHolding "[").lastAssistantText) →
        (processLine sampleLib (stateHolding "[") lineResultFailed).2 = silent) ∧
      ((processLine sampleLib (stateHolding "[") lineResultFailed).2 ≠ silent ↔
        (sampleResFailed.IsError = true ∧ chosenMessage sampleResFailed ≠ "" ∧
          chosenMessage sampleResFailed ≠ (stateHolding "[").lastAssistantText))) :=
  ⟨⟨_, rfl, rfl, rfl⟩,
    C13_result_printed_iff sampleLib (stateHolding "[") lineResultFailed sampleResFailed
      ⟨_, rfl, rfl, rfl⟩⟩

/-- C14: for non-empty `t` and `r`, a line that is an assistant turn whose only content item is
the text `t`, followed by a result line with the error flag set and result text `r`, writes the
one red line of `r` when `r` differs from `t` and nothing when `r` is `t`. With `t` and `r`
both `Done` nothing is written, and with `r` being `Failed differently` that message is
written; the same holds of the two handlers fed the specification's two documents. -/
theorem C14_result_deduplicated (lib : StdLib) (st : State) (t r : String) (line1 line2 : String)
    (env : AssistantEnvelope) (msg : AssistantMessage) (res : ResultEvent)
    (ht : t ≠ "") (hr : r ≠ "")
    (h1 : LineIsAssistant line1 env) (hmsg : env.Message = some msg)
    (hcontent : msg.Content = [{ Type_ := "text", Text := t }])
    (h2 : LineIsResult line2 res) (hflag : res.IsError = true) (hres : res.Result = r) :
    (r ≠ t → (processLines lib st [line1, line2]).2 = [Red ++ r ++ Reset ++ "\n"]) ∧
    (r = t → (processLines lib st [line1, line2]).2 = silent) ∧
    (processLines lib st [lineAssistantDone, lineResultDone]).2 = silent ∧
    (processLines lib st [lineAssistantDone, lineResultFailed]).2
      = [Red ++ "Failed differently" ++ Reset ++ "\n"] ∧
    (handleResult
      (handleAssistant st
        "\x7b\"message\":\x7b\"content\":[\x7b\"type\":\"text\",\"text\":\"Done\"\x7d]\x7d\x7d").1
      "\x7b\"is_error\":true,\"result\":\"Done\"\x7d").2 = silent ∧
    (handleResult
      (handleAssistant st
        "\x7b\"message\":\x7b\"content\":[\x7b\"type\":\"text\",\"text\":\"Done\"\x7d]\x7d\x7d").1
      "\x7b\"is_error\":true,\"result\":\"Failed differently\"\x7d").2
      = [Red ++ "Failed differently" ++ Reset ++ "\n"] := by
  have htext : assistantText msg.Content = t := by
    rw [hcontent]
    simp [assistantText]
  have hfirst : processLine lib st line1 = ({ st with lastAssistantText := t }, silent) := by
    rw [processLine_of_assistant lib st line1 env h1]
    unfold assistantBody
    rw [hmsg]
    dsimp only
    rw [htext, if_pos ht]
  have hchosen : chosenMessage res = r := by
    unfold chosenMessage
    rw [hres, if_neg hr]
  refine ⟨?_, ?_, rfl, rfl, rfl, rfl⟩
  · intro hne
    rw [processLines_pair, hfirst, seq_silent_left, processLine_of_result lib _ line2 res h2,
      resultBody_printed _ res ⟨hflag, by rw [hchosen]; exact hr, by rw [hchosen]; exact hne⟩,
      hchosen]
  · intro heq
    rw [processLines_pair, hfirst, seq_silent_left, processLine_of_result lib _ line2 res h2]
    apply resultBody_suppressed
    intro hc
    exact hc.2.2 (by rw [hchosen]; exact heq)

/-- C14 at the turn `Done` followed by the result `Failed differently`. -/
theorem C14_result_deduplicated_witness :
    "Done" ≠ "" ∧ "Failed differently" ≠ "" ∧
    LineIsAssistant lineAssistantDone sampleEnvDone ∧
    sampleEnvDone.Message = some sampleMsgDone ∧
    sampleMsgDone.Content = [{ Type_ := "text", Text := "Done" }] ∧
    LineIsResult lineResultFailed sampleResFailed ∧ sampleResFailed.IsError = true ∧
    sampleResFailed.Result = "Failed differently" ∧
    (("Failed differently" ≠ "Done" →
        (processLines sampleLib State.init [lineAssistantDone, lineResultFailed]).2
          = [Red ++ "Failed differently" ++ Reset ++ "\n"]) ∧
      ("Failed differently" = "Done" →
        (processLines sampleLib State.init [lineAssistantDone, lineResultFailed]).2 = silent) ∧
      (processLines sampleLib State.init [lineAssistantDone, lineResultDone]).2 = silent ∧
      (processLines sampleLib State.init [lineAssistantDone, lineResultFailed]).2
        = [Red ++ "Failed differently" ++ Reset ++ "\n"] ∧
      (handleResult
        (handleAssistant State.init
          "\x7b\"message\":\x7b\"content\":[\x7b\"type\":\"text\",\"text\":\"Done\"\x7d]\x7d\x7d").1
        "\x7b\"is_error\":true,\"result\":\"Done\"\x7d").2 = silent ∧
      (handleResult
        (handleAssistant State.init
          "\x7b\"message\":\x7b\"content\":[\x7b\"type\":\"text\",\"text\":\"Done\"\x7d]\x7d\x7d").1
        "\x7b\"is_error\":true,\"result\":\"Failed differently\"\x7d").2
        = [Red ++ "Failed differently" ++ Reset ++ "\n"]) :=
  ⟨by decide, by decide, ⟨_, rfl, rfl, rfl⟩, rfl, rfl, ⟨_, rfl, rfl, rfl⟩, rfl, rfl,
    C14_result_deduplicated sampleLib State.init "Done" "Failed differently" lineAssistantDone
      lineResultFailed sampleEnvDone sampleMsgDone sampleResFailed (by decide) (by decide)
      ⟨_, rfl, rfl, rfl⟩ rfl rfl ⟨_, rfl, rfl, rfl⟩ rfl rfl⟩

/-- C15: for a list-item map whose `content` is the string `c`, the item formatter writes the
one line made of the indentation, a glyph, a blank and `c`: the check glyph in green when
`status` is the string `completed`, the arrow glyph in cyan when it is the string
`in_progress`, and the open-circle glyph in dim for every other status, an absent one
included. The item with content `Task A` and status `completed` gets the check glyph, the item
with only content `Task B` the open-circle glyph. -/
theorem C15_checklist_glyph (lib : StdLib) (m : List (String × JSON)) (c : String)
    (hc : List.lookup "content" m = some (JSON.str c)) :
    (List.lookup "status" m = some (JSON.str "completed") →
      printMapItem lib m
        = ["    " ++ Green ++ "✓" ++ Reset ++ " " ++ Green ++ c ++ Reset ++ "\n"]) ∧
    (List.lookup "status" m = some (JSON.str "in_progress") →
      printMapItem lib m
        = ["    " ++ Cyan ++ "→" ++ Reset ++ " " ++ Cyan ++ c ++ Reset ++ "\n"]) ∧
    (List.lookup "status" m ≠ some (JSON.str "completed") →
      List.lookup "status" m ≠ some (JSON.str "in_progress") →
      printMapItem lib m
        = ["    " ++ Dim ++ "○" ++ Reset ++ " " ++ Dim ++ c ++ Reset ++ "\n"]) ∧
    printMapItem lib itemTaskA
      = ["    " ++ Green ++ "✓" ++ Reset ++ " " ++ Green ++ "Task A" ++ Reset ++ "\n"] ∧
    printMapItem lib itemTaskB
      = ["    " ++ Dim ++ "○" ++ Reset ++ " " ++ Dim ++ "Task B" ++ Reset ++ "\n"] := by
  rw [printMapItem_of_content lib m _ hc]
  refine ⟨?_, ?_, ?_, rfl, rfl⟩
  · intro hs
    rw [hs]
    rfl
  · intro hs
    rw [hs]
    rfl
  · intro h1 h2
    obtain ⟨n1, n2⟩ := asString_status_other _ h1 h2
    simp only [checklistLine, glyphOf, colorOf, if_neg n1, if_neg n2]
    rfl

/-- C15 at the item with content `Task A` and status `completed`. -/
theorem C15_checklist_glyph_witness :
    List.lookup "content" itemTaskA = some (JSON.str "Task A") ∧
    ((List.lookup "status" itemTaskA = some (JSON.str "completed") →
        printMapItem sampleLib itemTaskA
          = ["    " ++ Green ++ "✓" ++ Reset ++ " " ++ Green ++ "Task A" ++ Reset ++ "\n"]) ∧
      (List.lookup "status" itemTaskA = some (JSON.str "in_progress") →
        printMapItem sampleLib itemTaskA
          = ["    " ++ Cyan ++ "→" ++ Reset ++ " " ++ Cyan ++ "Task A" ++ Reset ++ "\n"]) ∧
      (List.lookup "status" itemTaskA ≠ some (JSON.str "completed") →
        List.lookup "status" itemTaskA ≠ some (JSON.str "in_progress") →
        printMapItem sampleLib itemTaskA
          = ["    " ++ Dim ++ "○" ++ Reset ++ " " ++ Dim ++ "Task A" ++ Reset ++ "\n"]) ∧
      printMapItem sampleLib itemTaskA
        = ["    " ++ Green ++ "✓" ++ Reset ++ " " ++ Green ++ "Task A" ++ Reset ++ "\n"] ∧
      printMapItem sampleLib itemTaskB
        = ["    " ++ Dim ++ "○" ++ Reset ++ " " ++ Dim ++ "Task B" ++ Reset ++ "\n"]) :=
  ⟨rfl, C15_checklist_glyph sampleLib itemTaskA "Task A" rfl⟩

/-- C17: from a state with the empty mapping, after lines carrying any sequence of stream
events, index `i` has an accumulator exactly when the sequence holds a tool-use start for `i`
that no stop for `i` follows later; and the mapping gives an index at most one accumulator.
From the initial state index 0 is open after start and fragment, absent after the stop that
follows, and open and empty after a further start. -/
theorem C17_index_state_machine (lib : StdLib) (st : State) (i : Int) (lines : List String)
    (evs : List StreamEvent) (hempty : ∀ j, st.toolInputs j = none)
    (hlines : List.Forall₂ (LineCarries lib) lines evs) :
    ((processLines lib st lines).1.toolInputs i ≠ none ↔ HasUnclosedStart i evs) ∧
    (∀ a b, (processLines lib st lines).1.toolInputs i = some a →
      (processLines lib st lines).1.toolInputs i = some b → a = b) ∧
    (processLines lib State.init [lineStart, lineFragmentA]).1.toolInputs 0
      = some "\x7b\"a\":" ∧
    (processLines lib State.init [lineStart, lineFragmentA, lineStop]).1.toolInputs 0 = none ∧
    (processLines lib State.init [lineStart, lineFragmentA, lineStop, lineStart]).1.toolInputs 0
      = some "" := by
  refine ⟨?_, ?_, rfl, rfl, rfl⟩
  · rw [processLines_of_carry lib lines evs hlines st, run_open_iff]
    constructor
    · rintro (h | ⟨h, _⟩)
      · exact h
      · exact absurd (hempty i) h
    · exact Or.inl
  · intro a b ha hb
    rw [ha] at hb
    exact Option.some.inj hb

/-- C17 at the start line followed by the sample lines, for index 0. -/
theorem C17_index_state_machine_witness :
    (∀ j, State.init.toolInputs j = none) ∧
    List.Forall₂ (LineCarries sampleLib) (lineStart :: sampleLines)
      (sampleStart :: sampleEvents) ∧
    (((processLines sampleLib State.init (lineStart :: sampleLines)).1.toolInputs 0 ≠ none ↔
        HasUnclosedStart 0 (sampleStart :: sampleEvents)) ∧
      (∀ a b, (processLines sampleLib State.init (lineStart :: sampleLines)).1.toolInputs 0
          = some a →
        (processLines sampleLib State.init (lineStart :: sampleLines)).1.toolInputs 0 = some b →
        a = b) ∧
      (processLines sampleLib State.init [lineStart, lineFragmentA]).1.toolInputs 0
        = some "\x7b\"a\":" ∧
      (processLines sampleLib State.init [lineStart, lineFragmentA, lineStop]).1.toolInputs 0
        = none ∧
      (processLines sampleLib State.init
        [lineStart, lineFragmentA, lineStop, lineStart]).1.toolInputs 0 = some "") :=
  ⟨fun _ => rfl, .cons ⟨_, _, rfl, rfl, rfl, rfl⟩ sampleLines_carry,
    C17_index_state_machine sampleLib State.init 0 (lineStart :: sampleLines)
      (sampleStart :: sampleEvents) (fun _ => rfl)
      (.cons ⟨_, _, rfl, rfl, rfl, rfl⟩ sampleLines_carry)⟩

/-- C18: a line carrying a stream event addressed to index `i` leaves the entry of every other
index `j`, its presence and its text, as it was, and leaves the last assistant text as it was;
and whatever nested document `handleStreamEvent` is given, it does not change the last
assistant text, nor the entry of any index other than the one the event decodes to. -/
theorem C18_stream_event_frame (lib : StdLib) (st : State) (i j : Int) (line : String)
    (se : StreamEvent) (hline : LineCarries lib line se) (hidx : se.Index = i) (hj : j ≠ i) :
    (processLine lib st line).1.toolInputs j = st.toolInputs j ∧
    (processLine lib st line).1.lastAssistantText = st.lastAssistantText ∧
    (∀ (st2 : State) (raw : Option JSON),
      (handleStreamEvent lib st2 raw).1.lastAssistantText = st2.lastAssistantText) ∧
    (∀ (st2 : State) (raw : Option JSON) (se2 : StreamEvent) (k : Int),
      decodeStreamEvent lib raw = some se2 → k ≠ se2.Index →
        (handleStreamEvent lib st2 raw).1.toolInputs k = st2.toolInputs k) ∧
    (∀ (st2 : State) (raw : Option JSON), decodeStreamEvent lib raw = none →
      (handleStreamEvent lib st2 raw).1 = st2) := by
  rw [processLine_of_carries lib st line se hline]
  refine ⟨switch_other_index lib st se j (fun h => hj (h.symm.trans hidx)),
    switch_lastAssistantText lib st se, ?_, ?_, ?_⟩
  · intro st2 raw
    unfold handleStreamEvent
    cases hd : decodeStreamEvent lib raw with
    | none => rfl
    | some se2 => exact switch_lastAssistantText lib st2 se2
  · intro st2 raw se2 k hd hk
    unfold handleStreamEvent
    rw [hd]
    exact switch_other_index lib st2 se2 k (fun h => hk h.symm)
  · intro st2 raw hd
    unfold handleStreamEvent
    rw [hd]

/-- C18 at the stop line for index 0, with index 1 open. -/
theorem C18_stream_event_frame_witness :
    LineCarries sampleLib lineStop (sampleStop 0) ∧ (sampleStop 0).Index = 0 ∧ (1 : Int) ≠ 0 ∧
    ((processLine sampleLib stateTwo lineStop).1.toolInputs 1 = stateTwo.toolInputs 1 ∧
      (processLine sampleLib stateTwo lineStop).1.lastAssistantText
        = stateTwo.lastAssistantText ∧
      (∀ (st2 : State) (raw : Option JSON),
        (handleStreamEvent sampleLib st2 raw).1.lastAssistantText = st2.lastAssistantText) ∧
      (∀ (st2 : State) (raw : Option JSON) (se2 : StreamEvent) (k : Int),
        decodeStreamEvent sampleLib raw = some se2 → k ≠ se2.Index →
          (handleStreamEvent sampleLib st2 raw).1.toolInputs k = st2.toolInputs k) ∧
      (∀ (st2 : State) (raw : Option JSON), decodeStreamEvent sampleLib raw = none →
        (handleStreamEvent sampleLib st2 raw).1 = st2)) :=
  ⟨⟨_, _, rfl, rfl, rfl, rfl⟩, rfl, by decide,
    C18_stream_event_frame sampleLib stateTwo 0 1 lineStop (sampleStop 0)
      ⟨_, _, rfl, rfl, rfl, rfl⟩ rfl (by decide)⟩

/-- C19: when index `i` already holds an accumulator, the line of a tool-use start for `i`
writes the header and nothing else and leaves `i` holding the empty text, the text held before
being dropped unrendered; after lines whose events then carry the fragments `fs` to `i`, the
accumulator holds the concatenation of `fs` alone, and the line of the stop for `i` writes
what the pretty-printer writes for that concatenation. With index 0 holding a complete object
at first, the lines start, fragment, fragment, stop write the header and the rendering of the
two fragments only. -/
theorem C19_restart_discards (lib : StdLib) (st : State) (i : Int) (name old : String)
    (startLine stopLine : String) (start stop : StreamEvent) (fs : List String)
    (lines : List String) (evs : List StreamEvent)
    (_hopen : st.toolInputs i = some old)
    (hstartLine : LineCarries lib startLine start) (hstart : IsToolUseStart i name start)
    (hlines : List.Forall₂ (LineCarries lib) lines evs) (hmid : Interleaves i fs evs)
    (hstopLine : LineCarries lib stopLine stop) (hstop : IsStop i stop) :
    (processLine lib st startLine).1.toolInputs i = some "" ∧
    (processLine lib st startLine).2
      = ["\n" ++ Dim ++ "[Tool: " ++ BoldCyan ++ name ++ Dim ++ "]" ++ Reset ++ "\n"] ∧
    (processLines lib st (startLine :: lines)).1.toolInputs i = some (String.join fs) ∧
    (processLine lib (processLines lib st (startLine :: lines)).1 stopLine).2
      = printPrettyParams lib (String.join fs) ∧
    (processLines lib (stateHolding "\x7b\"x\":\"old\"\x7d")
        [lineStart, lineFragmentA, lineFragmentB, lineStop]).2
      = ["\n" ++ Dim ++ "[Tool: " ++ BoldCyan ++ "T" ++ Dim ++ "]" ++ Reset ++ "\n"
          ++ "  " ++ Yellow ++ "a" ++ Reset ++ ": " ++ Green ++ "b" ++ Reset ++ "\n"] := by
  have hrun : (processLines lib st (startLine :: lines)).1.toolInputs i
      = some (String.join fs) := by
    rw [processLines_of_carry lib (startLine :: lines) (start :: evs)
      (List.Forall₂.cons hstartLine hlines) st]
    simp only [runStreamEvents]
    rw [switch_toolUseStart lib st i name start hstart]
    have h := run_interleaves lib i fs evs hmid
      { st with toolInputs := setInput st.toolInputs i (some "") } "" (setInput_same _ _ _)
    simpa using h
  refine ⟨?_, ?_, hrun, ?_, rfl⟩
  · rw [processLine_of_carries lib st startLine start hstartLine,
      switch_toolUseStart lib st i name start hstart]
    exact setInput_same _ _ _
  · rw [processLine_of_carries lib st startLine start hstartLine,
      switch_toolUseStart lib st i name start hstart]
  · rw [processLine_of_carries lib _ stopLine stop hstopLine,
      switch_stop_open lib _ i _ stop hstop hrun]

/-- C19 at the sample lines, index 0 holding a complete object at first. -/
theorem C19_restart_discards_witness :
    (stateHolding "\x7b\"x\":\"old\"\x7d").toolInputs 0 = some "\x7b\"x\":\"old\"\x7d" ∧
    LineCarries sampleLib lineStart sampleStart ∧ IsToolUseStart 0 "T" sampleStart ∧
    List.Forall₂ (LineCarries sampleLib) sampleLines sampleEvents ∧
    Interleaves 0 ["\x7b\"a\":", "\"b\"\x7d"] sampleEvents ∧
    LineCarries sampleLib lineStop (sampleStop 0) ∧ IsStop 0 (sampleStop 0) ∧
    ((processLine sampleLib (stateHolding "\x7b\"x\":\"old\"\x7d") lineStart).1.toolInputs 0
        = some "" ∧
      (processLine sampleLib (stateHolding "\x7b\"x\":\"old\"\x7d") lineStart).2
        = ["\n" ++ Dim ++ "[Tool: " ++ BoldCyan ++ "T" ++ Dim ++ "]" ++ Reset ++ "\n"] ∧
      (processLines sampleLib (stateHolding "\x7b\"x\":\"old\"\x7d")
          (lineStart :: sampleLines)).1.toolInputs 0
        = some (String.join ["\x7b\"a\":", "\"b\"\x7d"]) ∧
      (processLine sampleLib
          (processLines sampleLib (stateHolding "\x7b\"x\":\"old\"\x7d")
            (lineStart :: sampleLines)).1 lineStop).2
        = printPrettyParams sampleLib (String.join ["\x7b\"a\":", "\"b\"\x7d"]) ∧
      (processLines sampleLib (stateHolding "\x7b\"x\":\"old\"\x7d")
          [lineStart, lineFragmentA, lineFragmentB, lineStop]).2
        = ["\n" ++ Dim ++ "[Tool: " ++ BoldCyan ++ "T" ++ Dim ++ "]" ++ Reset ++ "\n"
            ++ "  " ++ Yellow ++ "a" ++ Reset ++ ": " ++ Green ++ "b" ++ Reset ++ "\n"]) :=
  ⟨rfl, ⟨_, _, rfl, rfl, rfl, rfl⟩, ⟨rfl, rfl, _, rfl, rfl, rfl⟩, sampleLines_carry,
    sampleEvents_interleaves, ⟨_, _, rfl, rfl, rfl, rfl⟩, ⟨rfl, rfl⟩,
    C19_restart_discards sampleLib (stateHolding "\x7b\"x\":\"old\"\x7d") 0 "T"
      "\x7b\"x\":\"old\"\x7d" lineStart lineStop sampleStart (sampleStop 0)
      ["\x7b\"a\":", "\"b\"\x7d"] sampleLines sampleEvents rfl
      ⟨_, _, rfl, rfl, rfl, rfl⟩ ⟨rfl, rfl, _, rfl, rfl, rfl⟩ sampleLines_carry
      sampleEvents_interleaves ⟨_, _, rfl, rfl, rfl, rfl⟩ ⟨rfl, rfl⟩⟩

/-- C20: a list-item map that has a `content` key, whatever the value under it, is written as
the single checklist line and not in the generic `key=value` form; the content text is the
value when that is a string and empty otherwise; and the line depends on nothing but the
values under `content` and `status`, so no other key is printed. The item with the number 5 as
content, status `in_progress` and a key `id` is written as the arrow glyph and an empty
content. -/
theorem C20_content_key_decides (lib : StdLib) (m : List (String × JSON)) (v : JSON)
    (hv : List.lookup "content" m = some v) :
    printMapItem lib m
      = [checklistLine (asString (List.lookup "status" m)) (asString (some v))] ∧
    ((∀ s, v ≠ JSON.str s) →
      printMapItem lib m = [checklistLine (asString (List.lookup "status" m)) ""]) ∧
    (∀ m2 : List (String × JSON), List.lookup "content" m2 = some v →
      List.lookup "status" m2 = List.lookup "status" m →
      printMapItem lib m2 = printMapItem lib m) ∧
    printMapItem lib itemNumberContent
      = ["    " ++ Cyan ++ "→" ++ Reset ++ " " ++ Cyan ++ "" ++ Reset ++ "\n"] := by
  refine ⟨printMapItem_of_content lib m v hv, ?_, ?_, rfl⟩
  · intro hns
    rw [printMapItem_of_content lib m v hv, asString_of_not_str v hns]
  · intro m2 hc2 hs2
    rw [printMapItem_of_content lib m v hv, printMapItem_of_content lib m2 v hc2, hs2]

/-- C20 at the item whose content is the number 5. -/
theorem C20_content_key_decides_witness :
    List.lookup "content" itemNumberContent = some (JSON.num "5") ∧
    (printMapItem sampleLib itemNumberContent
        = [checklistLine (asString (List.lookup "status" itemNumberContent))
            (asString (some (JSON.num "5")))] ∧
      ((∀ s, JSON.num "5" ≠ JSON.str s) →
        printMapItem sampleLib itemNumberContent
          = [checklistLine (asString (List.lookup "status" itemNumberContent)) ""]) ∧
      (∀ m2 : List (String × JSON), List.lookup "content" m2 = some (JSON.num "5") →
        List.lookup "status" m2 = List.lookup "status" itemNumberContent →
        printMapItem sampleLib m2 = printMapItem sampleLib itemNumberContent) ∧
      printMapItem sampleLib itemNumberContent
        = ["    " ++ Cyan ++ "→" ++ Reset ++ " " ++ Cyan ++ "" ++ Reset ++ "\n"]) :=
  ⟨rfl, C20_content_key_decides sampleLib itemNumberContent (JSON.num "5") rfl⟩

end PrettyClaudeStream
